import Mathlib

/-! # gconf-cleaner: the directory scan and the per-directory classification

A shallow embedding of `src/gconf-cleaner.c`.

* The configuration engine (`GConfEngine`) is an oracle that does not change
  during a scan. The two listing queries are always called with a fresh local
  `err` and answer with a list or with an error message. The schema lookup is
  called with the local `err` of the entry loop, which the loop never tests or
  clears: the oracle receives the schema name and that `err`, and answers with
  the schema (or `NULL`) and the `err` it leaves.
* A `GSList *` of strings is a `List String`; the cursor `current_dir`, a pointer
  into the directory list, is the remaining suffix of that list (`NULL` is `[]`).
* A `GError **` whose target may be unset is an `Option String` that is threaded
  through the calls.
* `guint` counters are natural numbers, and `n++` is the successor modulo
  `2 ^ 32`.
* `g_basename`, `g_set_error` and `strcmp` are the GLib and C library functions.
* The recursion of `_gconf_cleaner_all_dirs_recursively` is bounded by a fuel
  argument; `none` means that the fuel ran out (the walk did not finish).
* Dereferencing a `NULL` cursor is undefined in C; the embedding answers `none`.
  So does `gconf_cleaner_pairs_free` when it reads the data of a node past the
  end of its list.
-/

set_option autoImplicit false

namespace Cleaner

/-! ## Collaborators -/

/-- A configuration value; only its identity matters to the cleaner. -/
structure GConfValue where
  repr : String
  deriving DecidableEq, Repr

/-- A schema object as returned by the engine. -/
structure GConfSchema where
  name : String
  deriving DecidableEq, Repr

/-- An entry of a directory: key, optional value, optional schema name. -/
structure GConfEntry where
  key : String
  value : Option GConfValue
  schema_name : Option String
  deriving DecidableEq, Repr

/-- The engine. `gconf_engine_all_dirs` and `gconf_engine_all_entries` are
called with an unset `GError` and answer with a list or fail with a message.
`gconf_engine_get_schema` takes the schema name and the caller's `GError` as it
stands at the call, and gives the returned schema (`NULL` is `none`) and the
`GError` afterwards. -/
structure GConfEngine where
  all_dirs : String → Except String (List String)
  all_entries : String → Except String (List GConfEntry)
  get_schema : String → Option String → Option GConfSchema × Option String

/-- The width of a `guint`. -/
def GUINT_MOD : Nat := 2 ^ 32

/-- The C expression `n++` on a `guint`. -/
def guint_incr (n : Nat) : Nat := (n + 1) % GUINT_MOD

/-- The function `g_basename` of GLib: what follows the last `/`, or the whole
name when it has no `/`. -/
def g_basename (file_name : String) : String :=
  String.mk (file_name.data.reverse.takeWhile (fun c => c != '/')).reverse

/-- The table `blacklist` of `_gconf_cleaner_all_dirs_recursively`. -/
def blacklist : List String :=
  ["schemas", "profiles", "preferences", "prefs", "connected_servers", "wireless",
   "vpn_connections"]

/-- The loop over `blacklist`: some entry compares equal to the base name. -/
def is_blacklisted (path : String) : Bool :=
  blacklist.any (fun b => g_basename path == b)

/-- The function `g_set_error` of GLib: sets the error when none is set yet. -/
def g_set_error (error : Option String) (msg : String) : Option String :=
  match error with
  | none => some msg
  | some e => some e

/-- The message of a failed child-directory query. -/
def dirs_error_message (path msg : String) : String :=
  "Failed to get the directories in `" ++ path ++ "': " ++ msg

/-- The message of a failed entry query. -/
def entries_error_message (path msg : String) : String :=
  "Failed to get the entries in `" ++ path ++ "': " ++ msg

/-! ## The cleaner -/

/-- The record `struct _GConfCleaner`. -/
structure GConfCleaner where
  gconf : GConfEngine
  dirs : List String
  current_dir : List String
  n_dirs : Nat
  n_pairs : Nat
  n_unknown_pairs : Nat
  initialized : Bool

/-- What the recursive walk reads and writes besides its return value: the
counter `gcleaner->n_dirs` and the caller's `*error`. -/
structure ScanState where
  n_dirs : Nat
  error : Option String
  deriving DecidableEq, Repr

/-- The result of one call of the walk: the returned list, the value stored
through `is_blocked`, and the state. -/
structure ScanResult where
  retval : List String
  is_blocked : Bool
  st : ScanState
  deriving DecidableEq, Repr

/-- The `for (l = subdirs; ...)` loop of the walk; `recurse` is the recursive
call, `retval` the list accumulated so far. -/
def dirs_loop (recurse : ScanState → String → Option ScanResult) :
    List String → List String → ScanState → Option ScanResult
  | [], retval, st => some ⟨retval, false, st⟩
  | l :: rest, retval, st =>
    match recurse st l with
    | none => none
    | some r =>
      if r.st.error.isSome then
        some ⟨[], false, r.st⟩
      else if !r.is_blocked then
        dirs_loop recurse rest (retval ++ [l] ++ r.retval)
          { r.st with n_dirs := guint_incr r.st.n_dirs }
      else
        dirs_loop recurse rest retval r.st

/-- The function `_gconf_cleaner_all_dirs_recursively`. The field `is_blocked`
of the result is what the call stores through its `is_blocked` argument; the
caller that passes `NULL` ignores it. -/
def _gconf_cleaner_all_dirs_recursively (g : GConfEngine) :
    Nat → ScanState → String → Option ScanResult
  | 0, _, _ => none
  | fuel + 1, st, path =>
    if is_blacklisted path then
      some ⟨[], true, st⟩
    else
      match g.all_dirs path with
      | .error e =>
        some ⟨[], false, { st with error := g_set_error st.error (dirs_error_message path e) }⟩
      | .ok subdirs =>
        dirs_loop (_gconf_cleaner_all_dirs_recursively g fuel) subdirs [] st

/-- The function `gconf_cleaner_new`, over a given engine: a zeroed record. -/
def gconf_cleaner_new (g : GConfEngine) : GConfCleaner :=
  { gconf := g, dirs := [], current_dir := [], n_dirs := 0, n_pairs := 0,
    n_unknown_pairs := 0, initialized := false }

/-- The function `gconf_cleaner_is_initialized`. -/
def gconf_cleaner_is_initialized (gc : GConfCleaner) : Bool := gc.initialized

/-- The function `gconf_cleaner_update`: the returned boolean, the cleaner and
the caller's `*error` afterwards. -/
def gconf_cleaner_update (fuel : Nat) (gc : GConfCleaner) (_error : Option String) :
    Option (Bool × GConfCleaner × Option String) :=
  let error : Option String := none
  let gc := { gc with n_dirs := 0, n_pairs := 0, n_unknown_pairs := 0 }
  match _gconf_cleaner_all_dirs_recursively gc.gconf fuel ⟨gc.n_dirs, error⟩ "/" with
  | none => none
  | some r =>
    let gc := { gc with n_dirs := r.st.n_dirs, dirs := r.retval }
    let gc := { gc with current_dir := gc.dirs }
    let gc := { gc with initialized := true }
    some (r.st.error.isNone, gc, r.st.error)

/-- The function `gconf_cleaner_n_dirs`. -/
def gconf_cleaner_n_dirs (gc : GConfCleaner) : Nat := gc.n_dirs

/-- The function `gconf_cleaner_n_pairs`. -/
def gconf_cleaner_n_pairs (gc : GConfCleaner) : Nat := gc.n_pairs

/-- The function `gconf_cleaner_n_unknown_pairs`. -/
def gconf_cleaner_n_unknown_pairs (gc : GConfCleaner) : Nat := gc.n_unknown_pairs

/-- An element of the flat list that `gconf_cleaner_get_unknown_pairs_at_current_dir`
returns: a copied key or a copied value. -/
inductive PairItem where
  | key (k : String)
  | value (v : GConfValue)
  deriving DecidableEq, Repr

/-- What the entry loop reads and writes: the two counters, the list `retval`
and the local `err`. -/
structure PairsState where
  n_pairs : Nat
  n_unknown_pairs : Nat
  retval : List PairItem
  err : Option String
  deriving DecidableEq, Repr

/-- The assignment to `schema` in the entry loop: with a schema name the
engine is asked, with the local `err` as the loop has left it; without one the
schema is `NULL` and `err` is not touched. -/
def lookup_schema (g : GConfEngine) (schema_name : Option String) (err : Option String) :
    Option GConfSchema × Option String :=
  match schema_name with
  | some name => g.get_schema name err
  | none => (none, err)

/-- The `for (l = pairs; ...)` loop of
`gconf_cleaner_get_unknown_pairs_at_current_dir`. -/
def pairs_loop (g : GConfEngine) : List GConfEntry → PairsState → PairsState
  | [], s => s
  | pair :: rest, s =>
    let s := { s with n_pairs := guint_incr s.n_pairs }
    let looked := lookup_schema g pair.schema_name s.err
    let s := { s with err := looked.2 }
    match looked.1 with
    | some _ => pairs_loop g rest s
    | none =>
      match pair.value with
      | some v =>
        pairs_loop g rest
          { s with n_unknown_pairs := guint_incr s.n_unknown_pairs,
                   retval := s.retval ++ [PairItem.key pair.key] ++ [PairItem.value v] }
      | none => pairs_loop g rest s

/-- The function `gconf_cleaner_get_unknown_pairs_at_current_dir`: the returned
list, the cleaner and the caller's `*error` afterwards; `none` when the cursor
is `NULL`. -/
def gconf_cleaner_get_unknown_pairs_at_current_dir (gc : GConfCleaner) (_error : Option String) :
    Option (List PairItem × GConfCleaner × Option String) :=
  let error : Option String := none
  match gc.current_dir with
  | [] => none
  | path :: next =>
    let gc := { gc with current_dir := next }
    match gc.gconf.all_entries path with
    | .error e => some ([], gc, g_set_error error (entries_error_message path e))
    | .ok pairs =>
      let s := pairs_loop gc.gconf pairs ⟨gc.n_pairs, gc.n_unknown_pairs, [], none⟩
      some (s.retval, { gc with n_pairs := s.n_pairs, n_unknown_pairs := s.n_unknown_pairs },
        error)

/-- The function `gconf_cleaner_get_current_dir`; `none` is the `NULL` of the
failed precondition. -/
def gconf_cleaner_get_current_dir (gc : GConfCleaner) : Option String :=
  match gc.current_dir with
  | [] => none
  | path :: _ => some path

/-! ## Specification-side definitions -/

/-- A path whose base name is not in the blacklist. -/
def not_blocked (path : String) : Bool := !is_blacklisted path

/-- Pre-order listing of the non-blocked directories strictly below `path`, to
depth `depth`: children in store order, each followed by its own listing. -/
def preorder (g : GConfEngine) : Nat → String → List String
  | 0, _ => []
  | depth + 1, path =>
    match g.all_dirs path with
    | .error _ => []
    | .ok subdirs => (subdirs.filter not_blocked).flatMap (fun c => c :: preorder g depth c)

/-- The walk from `path` finishes without error within `depth` nested calls. -/
def walk_completes (g : GConfEngine) : Nat → String → Bool
  | 0, _ => false
  | depth + 1, path =>
    is_blacklisted path ||
      match g.all_dirs path with
      | .error _ => false
      | .ok subdirs => subdirs.all (fun c => walk_completes g depth c)

/-- The directory `d` is found from `p` by a chain of child listings on which
no path (`p` and `d` included) has a blacklisted base name. -/
inductive Discovered (g : GConfEngine) : String → String → Prop where
  | child {p c : String} {cs : List String} :
      is_blacklisted p = false → g.all_dirs p = .ok cs → c ∈ cs →
      is_blacklisted c = false → Discovered g p c
  | deeper {p c d : String} {cs : List String} :
      is_blacklisted p = false → g.all_dirs p = .ok cs → c ∈ cs →
      is_blacklisted c = false → Discovered g c d → Discovered g p d

/-- The engine in which no listing mentions a blacklisted directory. -/
def without_blacklisted (g : GConfEngine) : GConfEngine :=
  { g with
    all_dirs := fun p =>
      match g.all_dirs p with
      | .ok cs => .ok (cs.filter not_blocked)
      | .error e => .error e }

/-! ## Example stores -/

/-- The schema lookup of an engine that checks its `GError` argument, as GConf
does: called with `*err` already set it returns `NULL` at once and leaves
`*err`; called with `*err` unset it answers from the schema name, setting
`*err` when the lookup fails. -/
def guarded_lookup (answer : String → Except String (Option GConfSchema))
    (name : String) (err : Option String) : Option GConfSchema × Option String :=
  match err with
  | some e => (none, some e)
  | none =>
    match answer name with
    | .ok schema => (schema, none)
    | .error e => (none, some e)

/-- A store with one blacklisted subtree whose query would fail, and a
directory whose name merely contains a blacklisted name. -/
def store1 : GConfEngine where
  all_dirs := fun p =>
    if p = "/" then .ok ["/apps", "/schemas"]
    else if p = "/apps" then .ok ["/apps/foo", "/apps/myprefs"]
    else if p = "/schemas" then .error "boom"
    else .ok []
  all_entries := fun _ => .ok []
  get_schema := guarded_lookup (fun _ => .ok none)

/-! ## Specification-side definitions for the walk -/

/-- The list the walk returns for `path` when it finishes without error. -/
def scan_list (g : GConfEngine) (depth : Nat) (path : String) : List String :=
  if is_blacklisted path then [] else preorder g depth path

/-- The child relation on non-blocked directories decreases `rank`: the store
is a finite tree below every non-blocked directory. -/
def RankDecreasing (g : GConfEngine) (rank : String → Nat) : Prop :=
  ∀ (p : String) (cs : List String) (c : String),
    is_blacklisted p = false → g.all_dirs p = .ok cs → c ∈ cs →
    is_blacklisted c = false → rank c < rank p

/-! ## Concrete stores -/

/-- The cleaner after scanning `store1`. -/
def store1_scanned : GConfCleaner :=
  { gconf := store1, dirs := ["/apps", "/apps/foo", "/apps/myprefs"],
    current_dir := ["/apps", "/apps/foo", "/apps/myprefs"], n_dirs := 3, n_pairs := 0,
    n_unknown_pairs := 0, initialized := true }

/-- A store whose root lists `/a`, a leaf, and then `/apps`, whose
child-directory query fails. -/
def failing_store : GConfEngine where
  all_dirs := fun p =>
    if p = "/" then .ok ["/a", "/apps"]
    else if p = "/apps" then .error "unreachable"
    else .ok []
  all_entries := fun _ => .ok []
  get_schema := guarded_lookup (fun _ => .ok none)

/-- The cleaner after the failed scan of `failing_store`. -/
def failing_scanned : GConfCleaner :=
  { gconf := failing_store, dirs := [], current_dir := [], n_dirs := 1, n_pairs := 0,
    n_unknown_pairs := 0, initialized := true }

/-- The height of the directories of `failing_store`. -/
def failing_rank (p : String) : Nat := if p = "/" then 1 else 0

/-- The `k`-th child of the root of `wide_store`: `/a`, `/aa`, `/aaa`, ... -/
def wide_child (k : Nat) : String := String.mk ('/' :: List.replicate (k + 1) 'a')

/-- The children of the root of `wide_store`: `2 ^ 32` different leaves. -/
@[irreducible]
def wide_children : List String := (List.range GUINT_MOD).map wide_child

/-- A store whose root lists `2 ^ 32` different leaf directories. -/
def wide_store : GConfEngine where
  all_dirs := fun p => if p = "/" then .ok wide_children else .ok []
  all_entries := fun _ => .ok []
  get_schema := guarded_lookup (fun _ => .ok none)

/-- The cleaner after scanning `wide_store`. -/
def wide_scanned : GConfCleaner :=
  { gconf := wide_store, dirs := wide_children, current_dir := wide_children, n_dirs := 0,
    n_pairs := 0, n_unknown_pairs := 0, initialized := true }

/-! ## Specification-side definitions for the classification -/

/-- An unknown entry, when its schema lookup is made with the local `err` at
`err`: it has a value, and it carries no schema name or the lookup yields no
schema. -/
def is_unknown (g : GConfEngine) (err : Option String) (e : GConfEntry) : Bool :=
  e.value.isSome && (lookup_schema g e.schema_name err).1.isNone

/-- The local `err` after the schema lookups of the entries, made in entry
order starting with `err`. -/
def err_after (g : GConfEngine) : Option String → List GConfEntry → Option String
  | err, [] => err
  | err, e :: rest => err_after g (lookup_schema g e.schema_name err).2 rest

/-- The unknown entries in entry order, each judged by the lookup made with the
`err` that the lookups of the entries before it have left. -/
def unknown_from (g : GConfEngine) : Option String → List GConfEntry → List GConfEntry
  | _, [] => []
  | err, e :: rest =>
    if is_unknown g err e then
      e :: unknown_from g (lookup_schema g e.schema_name err).2 rest
    else
      unknown_from g (lookup_schema g e.schema_name err).2 rest

/-- The unknown entries of a directory: the loop starts with `err` unset. -/
def unknown_entries (g : GConfEngine) (es : List GConfEntry) : List GConfEntry :=
  unknown_from g none es

/-- The key and the value of an entry, as two consecutive list elements. -/
def pair_of (e : GConfEntry) : List PairItem :=
  match e.value with
  | some v => [PairItem.key e.key, PairItem.value v]
  | none => []

/-- The keys and values of the unknown entries, in entry order. -/
def unknown_pairs (g : GConfEngine) (es : List GConfEntry) : List PairItem :=
  (unknown_entries g es).flatMap pair_of

/-- The caller's loop: `k` successive calls of
`gconf_cleaner_get_unknown_pairs_at_current_dir`, whatever each one returns. -/
def fetch_n : Nat → GConfCleaner → Option String → Option (GConfCleaner × Option String)
  | 0, gc, error => some (gc, error)
  | k + 1, gc, error =>
    match gconf_cleaner_get_unknown_pairs_at_current_dir gc error with
    | none => none
    | some (_, gc2, error2) => fetch_n k gc2 error2

/-- The entries of `/apps` in `entry_store`: schema-less, with a resolvable
schema, without a value, with a schema whose lookup fails, and with a schema
name for which the engine has no schema. -/
def apps_entries : List GConfEntry :=
  [ ⟨"/apps/plain", some ⟨"1"⟩, none⟩,
    ⟨"/apps/known", some ⟨"2"⟩, some "/schemas/apps/known"⟩,
    ⟨"/apps/null", none, none⟩,
    ⟨"/apps/broken", some ⟨"3"⟩, some "/schemas/apps/broken"⟩,
    ⟨"/apps/gone", some ⟨"4"⟩, some "/schemas/apps/gone"⟩ ]

/-- A store with two directories: `/apps` holds `apps_entries`, the entry query
of `/desktop` fails. -/
def entry_store : GConfEngine where
  all_dirs := fun p => if p = "/" then .ok ["/apps", "/desktop"] else .ok []
  all_entries := fun p =>
    if p = "/apps" then .ok apps_entries
    else if p = "/desktop" then .error "stale lock"
    else .ok []
  get_schema := guarded_lookup (fun name =>
    if name = "/schemas/apps/known" then .ok (some ⟨"/schemas/apps/known"⟩)
    else if name = "/schemas/apps/broken" then .error "backend failure"
    else .ok none)

/-- The cleaner after scanning `entry_store`. -/
def entry_scanned : GConfCleaner :=
  { gconf := entry_store, dirs := ["/apps", "/desktop"], current_dir := ["/apps", "/desktop"],
    n_dirs := 2, n_pairs := 0, n_unknown_pairs := 0, initialized := true }

/-- The cleaner after scanning `entry_store` and fetching the entries of `/apps`. -/
def entry_after_apps : GConfCleaner :=
  { gconf := entry_store, dirs := ["/apps", "/desktop"], current_dir := ["/desktop"],
    n_dirs := 2, n_pairs := 5, n_unknown_pairs := 3, initialized := true }

/-! ## Releasing a returned list -/

/-- One release performed by `gconf_cleaner_pairs_free`, with the list element
it is applied to. -/
inductive FreeOp where
  | g_free (item : PairItem)
  | gconf_value_free (item : PairItem)
  deriving DecidableEq, Repr

/-- The `for (l = list; ...)` loop of `gconf_cleaner_pairs_free`: each iteration
releases `l->data` with `g_free`, steps to the next node and releases its data
with `gconf_value_free`; `none` when that second node is `NULL`. -/
def pairs_free_loop : List PairItem → Option (List FreeOp)
  | [] => some []
  | [_] => none
  | k :: v :: rest =>
    match pairs_free_loop rest with
    | none => none
    | some ops => some (FreeOp.g_free k :: FreeOp.gconf_value_free v :: ops)

/-- The function `gconf_cleaner_pairs_free`: the releases it performs, `none`
when it reads past the end of the list. On `NULL` the precondition check
returns at once. -/
def gconf_cleaner_pairs_free (list : List PairItem) : Option (List FreeOp) :=
  match list with
  | [] => some []
  | _ :: _ => pairs_free_loop list

/-- The call `gconf_cleaner_get_current_dir (gcleaner)` as a step on the
cleaner: the returned path and the cleaner afterwards. The function assigns to
no field. -/
def gconf_cleaner_get_current_dir_step (gc : GConfCleaner) : Option String × GConfCleaner :=
  (gconf_cleaner_get_current_dir gc, gc)

/-! ## Specification-side definitions for sequences of calls -/

/-- The caller's loop with its results kept: `k` successive calls of
`gconf_cleaner_get_unknown_pairs_at_current_dir` and the lists they returned,
in call order. -/
def fetch_trace : Nat → GConfCleaner → Option String →
    Option (GConfCleaner × Option String × List (List PairItem))
  | 0, gc, error => some (gc, error, [])
  | k + 1, gc, error =>
    match gconf_cleaner_get_unknown_pairs_at_current_dir gc error with
    | none => none
    | some (pairs, gc2, error2) =>
      match fetch_trace k gc2 error2 with
      | none => none
      | some (gc3, error3, returned) => some (gc3, error3, pairs :: returned)

/-- The number of (key, value) pairs in the returned flat lists. -/
def returned_pair_count (returned : List (List PairItem)) : Nat :=
  (returned.map (fun l => l.length / 2)).sum

/-- The number of entries of a directory, `0` when its entry query fails. -/
def entries_count (g : GConfEngine) (path : String) : Nat :=
  match g.all_entries path with
  | .ok es => es.length
  | .error _ => 0

/-- The number of entries in the listed directories whose entry query
succeeds. -/
def examined_entry_count (g : GConfEngine) (paths : List String) : Nat :=
  (paths.map (entries_count g)).sum

/-- The first failing child-directory query in walk order, to depth `depth`:
the directory and the engine's message. -/
def first_failure (g : GConfEngine) : Nat → String → Option (String × String)
  | 0, _ => none
  | depth + 1, path =>
    if is_blacklisted path then none
    else
      match g.all_dirs path with
      | .error e => some (path, e)
      | .ok subdirs => subdirs.findSome? (fun c => first_failure g depth c)

/-- The child relation on the non-blocked directories at or below `root`:
`c` is a non-blocked child in the listing of `p`. -/
def ChildBelow (g : GConfEngine) (root : String) (c p : String) : Prop :=
  (p = root ∨ Discovered g root p) ∧ is_blacklisted p = false ∧
    ∃ cs, g.all_dirs p = .ok cs ∧ c ∈ cs ∧ is_blacklisted c = false

/-! ## Scenario stores -/

/-- The store of the scenario: `/apps/foo` holds `bar = baz` without a schema
name, `/schemas/foo` lies under a blacklisted directory. -/
def scenario_store : GConfEngine where
  all_dirs := fun p =>
    if p = "/" then .ok ["/apps", "/schemas"]
    else if p = "/apps" then .ok ["/apps/foo"]
    else if p = "/schemas" then .ok ["/schemas/foo"]
    else .ok []
  all_entries := fun p =>
    if p = "/apps/foo" then .ok [⟨"bar", some ⟨"baz"⟩, none⟩] else .ok []
  get_schema := guarded_lookup (fun _ => .ok none)

/-- The cleaner after scanning `scenario_store`. -/
def scenario_scanned : GConfCleaner :=
  { gconf := scenario_store, dirs := ["/apps", "/apps/foo"],
    current_dir := ["/apps", "/apps/foo"], n_dirs := 2, n_pairs := 0, n_unknown_pairs := 0,
    initialized := true }

/-- The cleaner after the entries of `/apps` were fetched. -/
def scenario_after_apps : GConfCleaner :=
  { gconf := scenario_store, dirs := ["/apps", "/apps/foo"], current_dir := ["/apps/foo"],
    n_dirs := 2, n_pairs := 0, n_unknown_pairs := 0, initialized := true }

/-- The cleaner after the entries of `/apps/foo` were fetched as well. -/
def scenario_after_foo : GConfCleaner :=
  { gconf := scenario_store, dirs := ["/apps", "/apps/foo"], current_dir := [],
    n_dirs := 2, n_pairs := 1, n_unknown_pairs := 1, initialized := true }

/-- A store whose root lists the leaf `/a` and then `/b`, whose child-directory
query fails. -/
def partial_store : GConfEngine where
  all_dirs := fun p =>
    if p = "/" then .ok ["/a", "/b"]
    else if p = "/b" then .error "no answer"
    else .ok []
  all_entries := fun _ => .ok []
  get_schema := guarded_lookup (fun _ => .ok none)

/-- The cleaner after the failed scan of `partial_store`. -/
def partial_scanned : GConfCleaner :=
  { gconf := partial_store, dirs := [], current_dir := [], n_dirs := 1, n_pairs := 0,
    n_unknown_pairs := 0, initialized := true }

/-- The store `store1` with an answer for the child directories of `/schemas`. -/
def store1_answering : GConfEngine where
  all_dirs := fun p =>
    if p = "/" then .ok ["/apps", "/schemas"]
    else if p = "/apps" then .ok ["/apps/foo", "/apps/myprefs"]
    else if p = "/schemas" then .ok ["/schemas/apps"]
    else .ok []
  all_entries := fun _ => .ok []
  get_schema := guarded_lookup (fun _ => .ok none)

/-- A used cleaner over `store1`: stale list, exhausted cursor, non-zero
counters. -/
def store1_used : GConfCleaner :=
  { gconf := store1, dirs := ["/stale"], current_dir := [], n_dirs := 7, n_pairs := 5,
    n_unknown_pairs := 3, initialized := true }

/-- The cleaner after scanning `entry_store` and one call for each of its two
directories. -/
def entry_exhausted : GConfCleaner :=
  { gconf := entry_store, dirs := ["/apps", "/desktop"], current_dir := [],
    n_dirs := 2, n_pairs := 5, n_unknown_pairs := 3, initialized := true }

/-- The two releases due for an entry that was returned: `g_free` on its key
and `gconf_value_free` on its value. -/
def release_of (e : GConfEntry) : List FreeOp :=
  match e.value with
  | some v => [FreeOp.g_free (PairItem.key e.key), FreeOp.gconf_value_free (PairItem.value v)]
  | none => []

/-- The entries of `/d1` in `stale_store`: one whose schema lookup fails, then
one with a resolvable schema, then one without a schema name. -/
def d1_entries : List GConfEntry :=
  [ ⟨"/d1/broken", some ⟨"1"⟩, some "/schemas/d1/broken"⟩,
    ⟨"/d1/known", some ⟨"2"⟩, some "/schemas/d1/known"⟩,
    ⟨"/d1/plain", some ⟨"3"⟩, none⟩ ]

/-- A store with the single directory `/d1`, whose engine checks its `GError`
argument. -/
def stale_store : GConfEngine where
  all_dirs := fun p => if p = "/" then .ok ["/d1"] else .ok []
  all_entries := fun p => if p = "/d1" then .ok d1_entries else .ok []
  get_schema := guarded_lookup (fun name =>
    if name = "/schemas/d1/known" then .ok (some ⟨"/schemas/d1/known"⟩)
    else if name = "/schemas/d1/broken" then .error "backend failure"
    else .ok none)

/-- The cleaner after scanning `stale_store`. -/
def stale_scanned : GConfCleaner :=
  { gconf := stale_store, dirs := ["/d1"], current_dir := ["/d1"], n_dirs := 1,
    n_pairs := 0, n_unknown_pairs := 0, initialized := true }

/-- The cleaner after the entries of `/d1` were fetched. -/
def stale_after : GConfCleaner :=
  { gconf := stale_store, dirs := ["/d1"], current_dir := [], n_dirs := 1,
    n_pairs := 3, n_unknown_pairs := 3, initialized := true }

/-! ## Evaluation checks -/

theorem g_basename_examples :
    g_basename "/apps/foo" = "foo" ∧ g_basename "/" = "" ∧ g_basename "prefs" = "prefs" ∧
      g_basename "/apps/prefs/" = "" := by
  decide

theorem is_blacklisted_examples :
    is_blacklisted "/apps/prefs" = true ∧ is_blacklisted "/apps/myprefs" = false ∧
      is_blacklisted "/schemas" = true ∧ is_blacklisted "/apps/prefs/" = false := by
  decide

theorem store1_scan :
    _gconf_cleaner_all_dirs_recursively store1 3 ⟨0, none⟩ "/" =
      some ⟨["/apps", "/apps/foo", "/apps/myprefs"], false, ⟨3, none⟩⟩ := by
  decide

/-! ## The walk refines the pre-order listing -/

theorem guint_incr_add (n k : Nat) :
    guint_incr ((n + k) % GUINT_MOD) = (n + (k + 1)) % GUINT_MOD := by
  unfold guint_incr GUINT_MOD
  omega

theorem dirs_loop_success (recurse : ScanState → String → Option ScanResult)
    (sub : String → List String) (comp : String → Bool)
    (IH : ∀ st c r, st.error = none → st.n_dirs < GUINT_MOD → recurse st c = some r →
      r.st.error = none →
      comp c = true ∧ r.is_blocked = is_blacklisted c ∧
        r.retval = (if is_blacklisted c then [] else sub c) ∧
        r.st.n_dirs = (st.n_dirs + r.retval.length) % GUINT_MOD) :
    ∀ (cs acc : List String) (st : ScanState) (r : ScanResult),
      st.error = none → st.n_dirs < GUINT_MOD →
      dirs_loop recurse cs acc st = some r → r.st.error = none →
      cs.all comp = true ∧ r.is_blocked = false ∧
        r.retval = acc ++ (cs.filter not_blocked).flatMap (fun c => c :: sub c) ∧
        r.st.n_dirs =
          (st.n_dirs + ((cs.filter not_blocked).flatMap (fun c => c :: sub c)).length)
            % GUINT_MOD := by
  intro cs
  induction cs with
  | nil =>
    intro acc st r _ hn h _
    simp only [dirs_loop, Option.some.injEq] at h
    subst h
    simp [Nat.mod_eq_of_lt hn]
  | cons l rest ih =>
    intro acc st r he hn h hr
    simp only [dirs_loop] at h
    cases hrec : recurse st l with
    | none => simp [hrec] at h
    | some r1 =>
      simp only [hrec] at h
      by_cases herr : r1.st.error.isSome = true
      · simp only [herr, if_true, Option.some.injEq] at h
        subst h
        have hr1 : r1.st.error = none := hr
        simp [hr1] at herr
      · simp only [herr, Bool.false_eq_true, if_false] at h
        have he1 : r1.st.error = none := by
          cases hx : r1.st.error with
          | none => rfl
          | some x => simp [hx] at herr
        obtain ⟨hc, hb, hl, hcount⟩ := IH st l r1 he hn hrec he1
        have hlt : r1.st.n_dirs < GUINT_MOD := by
          rw [hcount]; exact Nat.mod_lt _ (by unfold GUINT_MOD; omega)
        by_cases hbl : is_blacklisted l = true
        · rw [hb, hbl] at h
          simp only [Bool.not_true, Bool.false_eq_true, if_false] at h
          obtain ⟨h1, h2, h3, h4⟩ := ih acc r1.st r he1 hlt h hr
          have hnb : not_blocked l = false := by simp [not_blocked, hbl]
          have hst : r1.st.n_dirs = st.n_dirs := by
            rw [hcount, hl]; simp [hbl, Nat.mod_eq_of_lt hn]
          refine ⟨by simp [hc, h1], h2, ?_, ?_⟩
          · simpa [List.filter_cons, hnb] using h3
          · rw [← hst]; simpa [List.filter_cons, hnb] using h4
        · have hbl2 : is_blacklisted l = false := by simpa using hbl
          rw [hb, hbl2] at h
          simp only [Bool.not_false, if_true] at h
          have hl2 : r1.retval = sub l := by simpa [hbl2] using hl
          have hlt2 : guint_incr r1.st.n_dirs < GUINT_MOD :=
            Nat.mod_lt _ (by unfold GUINT_MOD; omega)
          obtain ⟨h1, h2, h3, h4⟩ :=
            ih (acc ++ [l] ++ r1.retval) { r1.st with n_dirs := guint_incr r1.st.n_dirs } r
              he1 hlt2 h hr
          have hnb : not_blocked l = true := by simp [not_blocked, hbl2]
          refine ⟨by simp [hc, h1], h2, ?_, ?_⟩
          · rw [h3, hl2]; simp [List.filter_cons, hnb]
          · rw [h4]
            simp only [List.filter_cons, hnb, if_true, List.flatMap_cons, List.length_append,
              List.length_cons]
            rw [hcount, hl2, guint_incr_add]
            unfold GUINT_MOD
            omega

/-- When the walk returns without an error, its result is the pre-order
listing, it has counted exactly the listed directories, and the walk is
complete. -/
theorem scan_success (g : GConfEngine) :
    ∀ (fuel : Nat) (st : ScanState) (path : String) (r : ScanResult),
      st.error = none → st.n_dirs < GUINT_MOD →
      _gconf_cleaner_all_dirs_recursively g fuel st path = some r → r.st.error = none →
      walk_completes g fuel path = true ∧ r.is_blocked = is_blacklisted path ∧
        r.retval = scan_list g fuel path ∧
        r.st.n_dirs = (st.n_dirs + r.retval.length) % GUINT_MOD := by
  intro fuel
  induction fuel with
  | zero => intro st path r _ _ h; simp [_gconf_cleaner_all_dirs_recursively] at h
  | succ fuel ih =>
    intro st path r he hn h hr
    simp only [_gconf_cleaner_all_dirs_recursively] at h
    by_cases hbl : is_blacklisted path = true
    · simp only [hbl, if_true, Option.some.injEq] at h
      subst h
      simp [walk_completes, scan_list, hbl, Nat.mod_eq_of_lt hn]
    · have hbl2 : is_blacklisted path = false := by simpa using hbl
      simp only [hbl2, Bool.false_eq_true, if_false] at h
      cases hq : g.all_dirs path with
      | error e =>
        simp only [hq, Option.some.injEq] at h
        subst h
        simp [g_set_error, he] at hr
      | ok subdirs =>
        simp only [hq] at h
        obtain ⟨h1, h2, h3, h4⟩ :=
          dirs_loop_success (_gconf_cleaner_all_dirs_recursively g fuel) (preorder g fuel)
            (walk_completes g fuel)
            (fun st c r a b c1 d => by
              have := ih st c r a b c1 d
              simpa [scan_list] using this)
            subdirs [] st r he hn h hr
        refine ⟨by simp [walk_completes, hbl2, hq, h1], by simp [h2, hbl2], ?_, ?_⟩
        · simp [scan_list, hbl2, preorder, hq, h3]
        · rw [h4, h3]; simp

/-! ## Failure, fuel and totality -/

theorem dirs_loop_failure (recurse : ScanState → String → Option ScanResult) :
    ∀ (cs acc : List String) (st : ScanState) (r : ScanResult),
      st.error = none → dirs_loop recurse cs acc st = some r → r.st.error ≠ none →
      r.retval = [] ∧ r.is_blocked = false := by
  intro cs
  induction cs with
  | nil =>
    intro acc st r he h hr
    simp only [dirs_loop, Option.some.injEq] at h
    subst h
    exact absurd he hr
  | cons l rest ih =>
    intro acc st r _ h hr
    simp only [dirs_loop] at h
    cases hrec : recurse st l with
    | none => simp [hrec] at h
    | some r1 =>
      simp only [hrec] at h
      by_cases herr : r1.st.error.isSome = true
      · simp only [herr, if_true, Option.some.injEq] at h
        subst h
        exact ⟨rfl, rfl⟩
      · simp only [herr, Bool.false_eq_true, if_false] at h
        have he1 : r1.st.error = none := by
          cases hx : r1.st.error with
          | none => rfl
          | some x => simp [hx] at herr
        split at h
        · exact ih _ { r1.st with n_dirs := guint_incr r1.st.n_dirs } r he1 h hr
        · exact ih _ r1.st r he1 h hr

/-- When the walk returns with an error, it returns the empty list. -/
theorem scan_failure (g : GConfEngine) (fuel : Nat) (st : ScanState) (path : String)
    (r : ScanResult) (he : st.error = none)
    (h : _gconf_cleaner_all_dirs_recursively g fuel st path = some r) (hr : r.st.error ≠ none) :
    r.retval = [] ∧ r.is_blocked = false := by
  cases fuel with
  | zero => simp [_gconf_cleaner_all_dirs_recursively] at h
  | succ fuel =>
    simp only [_gconf_cleaner_all_dirs_recursively] at h
    split at h
    · simp only [Option.some.injEq] at h
      subst h
      exact absurd he hr
    · split at h
      · simp only [Option.some.injEq] at h
        subst h
        exact ⟨rfl, rfl⟩
      · exact dirs_loop_failure _ _ _ _ _ he h hr

theorem dirs_loop_mono (rec1 rec2 : ScanState → String → Option ScanResult)
    (hrec : ∀ st c r, rec1 st c = some r → rec2 st c = some r) :
    ∀ (cs acc : List String) (st : ScanState) (r : ScanResult),
      dirs_loop rec1 cs acc st = some r → dirs_loop rec2 cs acc st = some r := by
  intro cs
  induction cs with
  | nil => intro acc st r h; simpa [dirs_loop] using h
  | cons l rest ih =>
    intro acc st r h
    simp only [dirs_loop] at h ⊢
    cases h1 : rec1 st l with
    | none => simp [h1] at h
    | some r1 =>
      simp only [h1] at h
      simp only [hrec st l r1 h1]
      by_cases herr : r1.st.error.isSome = true
      · simpa only [herr, if_true] using h
      · simp only [herr, Bool.false_eq_true, if_false] at h ⊢
        by_cases hb : (!r1.is_blocked) = true
        · simp only [hb, if_true] at h ⊢
          exact ih _ _ _ h
        · simp only [hb, Bool.false_eq_true, if_false] at h ⊢
          exact ih _ _ _ h

/-- A result obtained with some fuel is obtained with any larger fuel. -/
theorem scan_fuel_succ (g : GConfEngine) :
    ∀ (fuel : Nat) (st : ScanState) (path : String) (r : ScanResult),
      _gconf_cleaner_all_dirs_recursively g fuel st path = some r →
      _gconf_cleaner_all_dirs_recursively g (fuel + 1) st path = some r := by
  intro fuel
  induction fuel with
  | zero => intro st path r h; simp [_gconf_cleaner_all_dirs_recursively] at h
  | succ fuel ih =>
    intro st path r h
    rw [_gconf_cleaner_all_dirs_recursively] at h ⊢
    by_cases hb : is_blacklisted path = true
    · simpa only [hb, if_true] using h
    · simp only [hb, Bool.false_eq_true, if_false] at h ⊢
      cases hq : g.all_dirs path with
      | error e => simpa only [hq] using h
      | ok cs =>
        simp only [hq] at h ⊢
        exact dirs_loop_mono _ _ ih _ _ _ _ h

theorem scan_fuel_le (g : GConfEngine) (fuel fuel2 : Nat) (hle : fuel ≤ fuel2)
    (st : ScanState) (path : String) (r : ScanResult)
    (h : _gconf_cleaner_all_dirs_recursively g fuel st path = some r) :
    _gconf_cleaner_all_dirs_recursively g fuel2 st path = some r := by
  induction hle with
  | refl => exact h
  | step _ ih => exact scan_fuel_succ g _ st path r ih

theorem dirs_loop_total (recurse : ScanState → String → Option ScanResult) :
    ∀ (cs : List String), (∀ c ∈ cs, ∀ st, ∃ r, recurse st c = some r) →
      ∀ (acc : List String) (st : ScanState), ∃ r, dirs_loop recurse cs acc st = some r := by
  intro cs
  induction cs with
  | nil => intro _ acc st; exact ⟨_, rfl⟩
  | cons l rest ih =>
    intro hall acc st
    obtain ⟨r1, h1⟩ := hall l (List.mem_cons_self _ _) st
    have ih2 := ih (fun c hc => hall c (List.mem_cons_of_mem _ hc))
    simp only [dirs_loop, h1]
    split
    · exact ⟨_, rfl⟩
    · split
      · exact ih2 _ _
      · exact ih2 _ _

/-- On a finite tree the walk returns once the fuel exceeds the height. -/
theorem scan_total (g : GConfEngine) (rank : String → Nat) (hrank : RankDecreasing g rank) :
    ∀ (fuel : Nat) (st : ScanState) (path : String),
      (is_blacklisted path = true ∧ 1 ≤ fuel) ∨ rank path + 2 ≤ fuel →
      ∃ r, _gconf_cleaner_all_dirs_recursively g fuel st path = some r := by
  intro fuel
  induction fuel with
  | zero => intro st path h; omega
  | succ fuel ih =>
    intro st path h
    rw [_gconf_cleaner_all_dirs_recursively]
    by_cases hb : is_blacklisted path = true
    · simp only [hb, if_true]; exact ⟨_, rfl⟩
    · have hb2 : is_blacklisted path = false := by simpa using hb
      simp only [hb2, Bool.false_eq_true, if_false]
      have hfuel : rank path + 2 ≤ fuel + 1 := by
        rcases h with h | h
        · exact absurd h.1 hb
        · exact h
      cases hq : g.all_dirs path with
      | error e => exact ⟨_, rfl⟩
      | ok cs =>
        apply dirs_loop_total
        intro c hc st2
        apply ih
        by_cases hcb : is_blacklisted c = true
        · left; exact ⟨hcb, by omega⟩
        · right
          have := hrank path cs c hb2 hq hc (by simpa using hcb)
          omega

/-! ## The pre-order listing and discovery chains -/

theorem discovered_not_blacklisted (g : GConfEngine) {p d : String}
    (h : Discovered g p d) : is_blacklisted d = false := by
  induction h with
  | child _ _ _ hc => exact hc
  | deeper _ _ _ _ _ ih => exact ih

theorem discovered_first_step (g : GConfEngine) {p d : String} (h : Discovered g p d) :
    ∃ cs c, g.all_dirs p = .ok cs ∧ c ∈ cs ∧ is_blacklisted c = false ∧
      (d = c ∨ Discovered g c d) := by
  cases h with
  | child _ hq hc hcb => exact ⟨_, _, hq, hc, hcb, Or.inl rfl⟩
  | deeper _ hq hc hcb hrest => exact ⟨_, _, hq, hc, hcb, Or.inr hrest⟩

theorem preorder_mem_discovered (g : GConfEngine) :
    ∀ (depth : Nat) (p d : String), is_blacklisted p = false →
      d ∈ preorder g depth p → Discovered g p d := by
  intro depth
  induction depth with
  | zero => intro p d _ h; simp [preorder] at h
  | succ depth ih =>
    intro p d hp h
    rw [preorder] at h
    cases hq : g.all_dirs p with
    | error e => simp [hq] at h
    | ok cs =>
      simp only [hq, List.mem_flatMap, List.mem_filter, List.mem_cons] at h
      obtain ⟨c, ⟨hc, hnb⟩, hd⟩ := h
      have hcb : is_blacklisted c = false := by simpa [not_blocked] using hnb
      rcases hd with hd | hd
      · subst hd; exact Discovered.child hp hq hc hcb
      · exact Discovered.deeper hp hq hc hcb (ih c d hcb hd)

theorem walk_completes_children (g : GConfEngine) (depth : Nat) (p : String)
    (h : walk_completes g (depth + 1) p = true) (hp : is_blacklisted p = false) :
    ∃ cs, g.all_dirs p = .ok cs ∧ ∀ c ∈ cs, walk_completes g depth c = true := by
  rw [walk_completes] at h
  cases hq : g.all_dirs p with
  | error e => simp [hq, hp] at h
  | ok cs =>
    refine ⟨cs, rfl, ?_⟩
    simpa [hq, hp] using h

theorem discovered_mem_preorder (g : GConfEngine) :
    ∀ (depth : Nat) (p d : String), walk_completes g depth p = true →
      is_blacklisted p = false → Discovered g p d → d ∈ preorder g depth p := by
  intro depth
  induction depth with
  | zero => intro p d h; simp [walk_completes] at h
  | succ depth ih =>
    intro p d h hp hd
    obtain ⟨cs, hq, hall⟩ := walk_completes_children g depth p h hp
    rw [preorder]
    simp only [hq, List.mem_flatMap, List.mem_filter, List.mem_cons]
    obtain ⟨cs2, c, hq2, hc, hcb, hrest⟩ := discovered_first_step g hd
    rw [hq] at hq2
    cases hq2
    refine ⟨c, ⟨hc, by simp [not_blocked, hcb]⟩, ?_⟩
    rcases hrest with hrest | hrest
    · exact Or.inl hrest
    · exact Or.inr (ih c d (hall c hc) hcb hrest)

theorem discovered_query_ok (g : GConfEngine) :
    ∀ (depth : Nat) (p d : String), walk_completes g depth p = true →
      is_blacklisted p = false → Discovered g p d → ∃ cs, g.all_dirs d = .ok cs := by
  intro depth
  induction depth with
  | zero => intro p d h; simp [walk_completes] at h
  | succ depth ih =>
    intro p d h hp hd
    obtain ⟨cs, hq, hall⟩ := walk_completes_children g depth p h hp
    obtain ⟨cs2, c, hq2, hc, hcb, hrest⟩ := discovered_first_step g hd
    rw [hq] at hq2
    cases hq2
    rcases hrest with hrest | hrest
    · subst hrest
      have hcd := hall d hc
      cases depth with
      | zero => simp [walk_completes] at hcd
      | succ k =>
        obtain ⟨cs3, hq3, _⟩ := walk_completes_children g k d hcd hcb
        exact ⟨cs3, hq3⟩
    · exact ih c d (hall c hc) hcb hrest

theorem walk_completes_succ (g : GConfEngine) :
    ∀ (depth : Nat) (p : String), walk_completes g depth p = true →
      walk_completes g (depth + 1) p = true := by
  intro depth
  induction depth with
  | zero => intro p h; simp [walk_completes] at h
  | succ depth ih =>
    intro p h
    by_cases hp : is_blacklisted p = true
    · rw [walk_completes]; simp [hp]
    · have hp2 : is_blacklisted p = false := by simpa using hp
      obtain ⟨cs, hq, hall⟩ := walk_completes_children g depth p h hp2
      rw [walk_completes]
      simp only [hq, hp2, Bool.false_or, List.all_eq_true]
      exact fun c hc => ih c (hall c hc)

theorem preorder_succ (g : GConfEngine) :
    ∀ (depth : Nat) (p : String), walk_completes g depth p = true →
      is_blacklisted p = false → preorder g (depth + 1) p = preorder g depth p := by
  intro depth
  induction depth with
  | zero => intro p h; simp [walk_completes] at h
  | succ depth ih =>
    intro p h hp
    obtain ⟨cs, hq, hall⟩ := walk_completes_children g depth p h hp
    rw [preorder, preorder]
    simp only [hq]
    apply List.flatMap_congr
    intro c hc
    simp only [List.mem_filter] at hc
    rw [ih c (hall c hc.1) (by simpa [not_blocked] using hc.2)]

theorem preorder_mem_completes (g : GConfEngine) :
    ∀ (depth : Nat) (p d : String), walk_completes g (depth + 1) p = true →
      is_blacklisted p = false → d ∈ preorder g (depth + 1) p →
      walk_completes g depth d = true := by
  intro depth
  induction depth with
  | zero =>
    intro p d h hp hd
    obtain ⟨cs, hq, hall⟩ := walk_completes_children g 0 p h hp
    rw [preorder] at hd
    simp only [hq, List.mem_flatMap, List.mem_filter, List.mem_cons, preorder] at hd
    obtain ⟨c, ⟨hc, _⟩, hd⟩ := hd
    have := hall c hc
    simp [walk_completes] at this
  | succ depth ih =>
    intro p d h hp hd
    obtain ⟨cs, hq, hall⟩ := walk_completes_children g (depth + 1) p h hp
    rw [preorder] at hd
    simp only [hq, List.mem_flatMap, List.mem_filter, List.mem_cons] at hd
    obtain ⟨c, ⟨hc, hnb⟩, hd⟩ := hd
    rcases hd with hd | hd
    · subst hd; exact hall d hc
    · exact walk_completes_succ g depth d
        (ih c d (hall c hc) (by simpa [not_blocked] using hnb) hd)

/-- A directory is not listed below itself by a walk that completes. -/
theorem preorder_not_mem_self (g : GConfEngine) :
    ∀ (depth : Nat) (p : String), walk_completes g depth p = true →
      is_blacklisted p = false → p ∉ preorder g depth p := by
  intro depth
  induction depth with
  | zero => intro p h; simp [walk_completes] at h
  | succ depth ih =>
    intro p h hp hmem
    have hc := preorder_mem_completes g depth p p h hp hmem
    rw [preorder_succ g depth p hc hp] at hmem
    exact ih p hc hp hmem

/-! ## Completeness of the walk and blacklisted listings -/

theorem dirs_loop_complete (recurse : ScanState → String → Option ScanResult) :
    ∀ (cs : List String),
      (∀ c ∈ cs, ∀ st : ScanState, st.error = none →
        ∃ r, recurse st c = some r ∧ r.st.error = none) →
      ∀ (acc : List String) (st : ScanState), st.error = none →
        ∃ r, dirs_loop recurse cs acc st = some r ∧ r.st.error = none := by
  intro cs
  induction cs with
  | nil => intro _ acc st he; exact ⟨_, rfl, he⟩
  | cons l rest ih =>
    intro hall acc st he
    obtain ⟨r1, h1, he1⟩ := hall l (List.mem_cons_self _ _) st he
    have ih2 := ih (fun c hc => hall c (List.mem_cons_of_mem _ hc))
    simp only [dirs_loop, h1, he1, Option.isSome_none, Bool.false_eq_true, if_false]
    split
    · exact ih2 _ _ rfl
    · exact ih2 _ _ he1

/-- A walk that completes returns, without an error. -/
theorem scan_complete (g : GConfEngine) :
    ∀ (fuel : Nat) (st : ScanState) (path : String), st.error = none →
      walk_completes g fuel path = true →
      ∃ r, _gconf_cleaner_all_dirs_recursively g fuel st path = some r ∧ r.st.error = none := by
  intro fuel
  induction fuel with
  | zero => intro st path _ h; simp [walk_completes] at h
  | succ fuel ih =>
    intro st path he h
    rw [_gconf_cleaner_all_dirs_recursively]
    by_cases hb : is_blacklisted path = true
    · simp only [hb, if_true]; exact ⟨_, rfl, he⟩
    · have hb2 : is_blacklisted path = false := by simpa using hb
      obtain ⟨cs, hq, hall⟩ := walk_completes_children g fuel path h hb2
      simp only [hb2, Bool.false_eq_true, if_false, hq]
      exact dirs_loop_complete _ cs (fun c hc st2 he2 => ih st2 c he2 (hall c hc)) [] st he

theorem scan_blocked (g : GConfEngine) (fuel : Nat) (st : ScanState) (path : String)
    (r : ScanResult) (hb : is_blacklisted path = true)
    (h : _gconf_cleaner_all_dirs_recursively g fuel st path = some r) : r = ⟨[], true, st⟩ := by
  cases fuel with
  | zero => simp [_gconf_cleaner_all_dirs_recursively] at h
  | succ fuel =>
    rw [_gconf_cleaner_all_dirs_recursively] at h
    simp only [hb, if_true, Option.some.injEq] at h
    exact h.symm

theorem dirs_loop_without_blacklisted (rec1 rec2 : ScanState → String → Option ScanResult)
    (hrec : ∀ st c r, st.error = none → rec1 st c = some r → rec2 st c = some r)
    (hblk : ∀ st c r, is_blacklisted c = true → rec1 st c = some r → r = ⟨[], true, st⟩) :
    ∀ (cs acc : List String) (st : ScanState) (r : ScanResult), st.error = none →
      dirs_loop rec1 cs acc st = some r →
      dirs_loop rec2 (cs.filter not_blocked) acc st = some r := by
  intro cs
  induction cs with
  | nil => intro acc st r _ h; simpa [dirs_loop] using h
  | cons l rest ih =>
    intro acc st r he h
    simp only [dirs_loop] at h
    cases h1 : rec1 st l with
    | none => simp [h1] at h
    | some r1 =>
      simp only [h1] at h
      by_cases hb : is_blacklisted l = true
      · have hr1 := hblk st l r1 hb h1
        subst hr1
        have hnb : not_blocked l = false := by simp [not_blocked, hb]
        simp only [he, Option.isSome_none, Bool.false_eq_true, if_false, Bool.not_true] at h
        simp only [List.filter_cons, hnb, Bool.false_eq_true, if_false]
        exact ih acc st r he h
      · have hnb : not_blocked l = true := by simpa [not_blocked] using hb
        simp only [List.filter_cons, hnb, if_true, dirs_loop, hrec st l r1 he h1]
        by_cases herr : r1.st.error.isSome = true
        · simpa only [herr, if_true] using h
        · simp only [herr, Bool.false_eq_true, if_false] at h ⊢
          have he1 : r1.st.error = none := by
            cases hx : r1.st.error with
            | none => rfl
            | some x => simp [hx] at herr
          by_cases hbl : (!r1.is_blocked) = true
          · simp only [hbl, if_true] at h ⊢
            exact ih _ { r1.st with n_dirs := guint_incr r1.st.n_dirs } r he1 h
          · simp only [hbl, Bool.false_eq_true, if_false] at h ⊢
            exact ih _ r1.st r he1 h

/-- The walk gives the same result on the engine whose listings leave the
blacklisted directories out. -/
theorem scan_without_blacklisted (g : GConfEngine) :
    ∀ (fuel : Nat) (st : ScanState) (path : String) (r : ScanResult), st.error = none →
      _gconf_cleaner_all_dirs_recursively g fuel st path = some r →
      _gconf_cleaner_all_dirs_recursively (without_blacklisted g) fuel st path = some r := by
  intro fuel
  induction fuel with
  | zero => intro st path r _ h; simp [_gconf_cleaner_all_dirs_recursively] at h
  | succ fuel ih =>
    intro st path r he h
    rw [_gconf_cleaner_all_dirs_recursively] at h ⊢
    by_cases hb : is_blacklisted path = true
    · simpa only [hb, if_true] using h
    · simp only [hb, Bool.false_eq_true, if_false] at h ⊢
      cases hq : g.all_dirs path with
      | error e =>
        have hq2 : (without_blacklisted g).all_dirs path = .error e := by
          simp [without_blacklisted, hq]
        simpa only [hq, hq2] using h
      | ok cs =>
        have hq2 : (without_blacklisted g).all_dirs path = .ok (cs.filter not_blocked) := by
          simp [without_blacklisted, hq]
        simp only [hq] at h
        simp only [hq2]
        exact dirs_loop_without_blacklisted _ _ ih
          (fun st c r hb h => scan_blocked g fuel st c r hb h) cs [] st r he h

/-- What a returning `gconf_cleaner_update` has done, in terms of the walk. -/
theorem update_inv (fuel : Nat) (gc : GConfCleaner) (error : Option String) (ok : Bool)
    (gc2 : GConfCleaner) (error2 : Option String)
    (h : gconf_cleaner_update fuel gc error = some (ok, gc2, error2)) :
    ∃ r, _gconf_cleaner_all_dirs_recursively gc.gconf fuel ⟨0, none⟩ "/" = some r ∧
      ok = r.st.error.isNone ∧ error2 = r.st.error ∧
      gc2 = { gconf := gc.gconf, dirs := r.retval, current_dir := r.retval,
              n_dirs := r.st.n_dirs, n_pairs := 0, n_unknown_pairs := 0,
              initialized := true } := by
  unfold gconf_cleaner_update at h
  simp only at h
  cases hr : _gconf_cleaner_all_dirs_recursively gc.gconf fuel ⟨0, none⟩ "/" with
  | none => simp [hr] at h
  | some r =>
    simp only [hr, Option.some.injEq, Prod.mk.injEq] at h
    obtain ⟨h1, h2, h3⟩ := h
    exact ⟨r, rfl, h1.symm, h3.symm, h2.symm⟩

theorem root_not_blacklisted : is_blacklisted "/" = false := by decide

theorem guint_zero_lt : (⟨0, none⟩ : ScanState).n_dirs < GUINT_MOD := by
  show 0 < GUINT_MOD
  unfold GUINT_MOD
  omega

theorem is_blacklisted_iff (p : String) :
    is_blacklisted p = true ↔ g_basename p ∈ blacklist := by
  simp only [is_blacklisted, List.any_eq_true, beq_iff_eq]
  constructor
  · rintro ⟨b, hb, rfl⟩; exact hb
  · intro h; exact ⟨_, h, rfl⟩

theorem not_blacklisted_iff (p : String) :
    is_blacklisted p = false ↔ g_basename p ∉ blacklist := by
  rw [← is_blacklisted_iff]; simp

/-- What a successful `gconf_cleaner_update` leaves in the cleaner. -/
theorem update_success (fuel : Nat) (gc : GConfCleaner) (error : Option String)
    (gc2 : GConfCleaner) (error2 : Option String)
    (h : gconf_cleaner_update fuel gc error = some (true, gc2, error2)) :
    walk_completes gc.gconf fuel "/" = true ∧ gc2.dirs = preorder gc.gconf fuel "/" ∧
      gc2.current_dir = gc2.dirs ∧ gc2.n_dirs = gc2.dirs.length % GUINT_MOD ∧
      gc2.n_pairs = 0 ∧ gc2.n_unknown_pairs = 0 ∧ gc2.gconf = gc.gconf ∧ error2 = none := by
  obtain ⟨r, hr, hok, herr, hgc⟩ := update_inv fuel gc error true gc2 error2 h
  have he : r.st.error = none := by
    cases hx : r.st.error with
    | none => rfl
    | some x => simp [hx] at hok
  obtain ⟨h1, _, h3, h4⟩ :=
    scan_success gc.gconf fuel ⟨0, none⟩ "/" r rfl guint_zero_lt hr he
  subst hgc
  refine ⟨h1, ?_, rfl, ?_, rfl, rfl, rfl, by rw [herr, he]⟩
  · simpa [scan_list, root_not_blacklisted] using h3
  · simpa using h4

/-! ## The claims -/

/-- C1: after any returning `gconf_cleaner_update`, every listed path has a base
name outside the blacklist and a chain of child listings from `/` on which no
base name is blacklisted; on success `n_dirs` is the number of listed paths
(as a `guint`); and list, counter, return value and error are those of the
scan of the engine whose listings omit every blacklisted directory, so the
counter counts none of them. -/
theorem C1_blacklisted_never_listed_or_counted (fuel : Nat) (gc : GConfCleaner)
    (error : Option String) (ok : Bool) (gc2 : GConfCleaner) (error2 : Option String)
    (h : gconf_cleaner_update fuel gc error = some (ok, gc2, error2)) :
    (∀ d ∈ gc2.dirs, g_basename d ∉ blacklist ∧ Discovered gc.gconf "/" d) ∧
    (ok = true → gconf_cleaner_n_dirs gc2 = gc2.dirs.length % GUINT_MOD) ∧
    gconf_cleaner_update fuel { gc with gconf := without_blacklisted gc.gconf } error =
      some (ok, { gc2 with gconf := without_blacklisted gc.gconf }, error2) := by
  obtain ⟨r, hr, hok, herr, hgc⟩ := update_inv fuel gc error ok gc2 error2 h
  refine ⟨?_, ?_, ?_⟩
  · intro d hd
    subst hgc
    simp only at hd
    cases he : r.st.error with
    | none =>
      obtain ⟨_, _, h3, _⟩ :=
        scan_success gc.gconf fuel ⟨0, none⟩ "/" r rfl guint_zero_lt hr he
      rw [h3] at hd
      simp only [scan_list, root_not_blacklisted, Bool.false_eq_true, if_false] at hd
      have hdisc := preorder_mem_discovered gc.gconf fuel "/" d root_not_blacklisted hd
      exact ⟨(not_blacklisted_iff d).1 (discovered_not_blacklisted gc.gconf hdisc), hdisc⟩
    | some x =>
      have := (scan_failure gc.gconf fuel ⟨0, none⟩ "/" r rfl hr (by simp [he])).1
      rw [this] at hd
      simp at hd
  · intro hk
    subst hk
    exact (update_success fuel gc error gc2 error2 h).2.2.2.1
  · have h2 := scan_without_blacklisted gc.gconf fuel ⟨0, none⟩ "/" r rfl hr
    subst hgc
    simp only [gconf_cleaner_update, h2, hok, herr]

/-- C2: after a successful `gconf_cleaner_update`, every directory that has a
chain of child listings from `/` without a blacklisted base name is in the
directory list; exclusion is by exact equality of the base name, so
`/apps/myprefs` is not excluded. -/
theorem C2_every_reachable_directory_listed (fuel : Nat) (gc : GConfCleaner)
    (error : Option String) (gc2 : GConfCleaner) (error2 : Option String)
    (h : gconf_cleaner_update fuel gc error = some (true, gc2, error2)) :
    (∀ d, Discovered gc.gconf "/" d → d ∈ gc2.dirs) ∧
    (∀ p, is_blacklisted p = true ↔ g_basename p ∈ blacklist) ∧
    is_blacklisted "/apps/myprefs" = false := by
  obtain ⟨h1, h2, _⟩ := update_success fuel gc error gc2 error2 h
  refine ⟨?_, is_blacklisted_iff, by decide⟩
  intro d hd
  rw [h2]
  exact discovered_mem_preorder gc.gconf fuel "/" d h1 root_not_blacklisted hd

/-- C3: after a successful `gconf_cleaner_update`, the directory list is the
pre-order listing of the non-blocked tree below `/` (children in store order,
each followed by its own listing), whatever larger depth bound is taken, and
`/` itself is not in the list. -/
theorem C3_directory_list_is_preorder (fuel : Nat) (gc : GConfCleaner)
    (error : Option String) (gc2 : GConfCleaner) (error2 : Option String)
    (h : gconf_cleaner_update fuel gc error = some (true, gc2, error2)) :
    gc2.dirs = preorder gc.gconf fuel "/" ∧
    (∀ fuel2, fuel ≤ fuel2 → gc2.dirs = preorder gc.gconf fuel2 "/") ∧
    "/" ∉ gc2.dirs := by
  obtain ⟨h1, h2, _⟩ := update_success fuel gc error gc2 error2 h
  refine ⟨h2, ?_, ?_⟩
  · intro fuel2 hle
    rw [h2]
    induction hle with
    | refl => rfl
    | step hle ih =>
      rename_i m
      have hc : walk_completes gc.gconf m "/" = true := by
        clear ih
        induction hle with
        | refl => exact h1
        | step _ ih2 => exact walk_completes_succ _ _ _ ih2
      rw [ih, preorder_succ gc.gconf m "/" hc root_not_blacklisted]
  · rw [h2]
    exact preorder_not_mem_self gc.gconf fuel "/" h1 root_not_blacklisted

/-- C4 (amended): after a successful `gconf_cleaner_update`, from any prior
state, `gconf_cleaner_n_dirs` is the length of the directory list reduced
modulo `2 ^ 32`; it is the length itself when the list has fewer than `2 ^ 32`
paths. -/
theorem C4_n_dirs_is_length_mod (fuel : Nat) (gc : GConfCleaner) (error : Option String)
    (gc2 : GConfCleaner) (error2 : Option String)
    (h : gconf_cleaner_update fuel gc error = some (true, gc2, error2)) :
    gconf_cleaner_n_dirs gc2 = gc2.dirs.length % GUINT_MOD ∧
    (gc2.dirs.length < GUINT_MOD → gconf_cleaner_n_dirs gc2 = gc2.dirs.length) := by
  have hn := (update_success fuel gc error gc2 error2 h).2.2.2.1
  refine ⟨hn, fun hlt => ?_⟩
  show gc2.n_dirs = _
  rw [hn, Nat.mod_eq_of_lt hlt]

/-- C5: when the child-directory query fails at `/` or at a directory found by
a chain of non-blocked child listings, every returning `gconf_cleaner_update`
returns failure with an error set and leaves the directory list and the cursor
empty; and on a finite tree the update does return so, for every fuel above the
height of the tree. -/
theorem C5_failed_scan_keeps_no_partial_list (gc : GConfCleaner) (error : Option String)
    (d e : String) (hd : d = "/" ∨ Discovered gc.gconf "/" d)
    (hfail : gc.gconf.all_dirs d = .error e) :
    (∀ fuel ok gc2 error2, gconf_cleaner_update fuel gc error = some (ok, gc2, error2) →
      ok = false ∧ error2.isSome = true ∧ gc2.dirs = [] ∧ gc2.current_dir = [] ∧
        gconf_cleaner_get_current_dir gc2 = none) ∧
    (∀ rank, RankDecreasing gc.gconf rank → ∀ fuel, rank "/" + 2 ≤ fuel →
      ∃ gc2 msg, gconf_cleaner_update fuel gc error = some (false, gc2, some msg) ∧
        gc2.dirs = [] ∧ gc2.current_dir = []) := by
  have part1 : ∀ fuel ok gc2 error2,
      gconf_cleaner_update fuel gc error = some (ok, gc2, error2) →
      ok = false ∧ error2.isSome = true ∧ gc2.dirs = [] ∧ gc2.current_dir = [] ∧
        gconf_cleaner_get_current_dir gc2 = none := by
    intro fuel ok gc2 error2 h
    obtain ⟨r, hr, hok, herr, hgc⟩ := update_inv fuel gc error ok gc2 error2 h
    cases he : r.st.error with
    | none =>
      exfalso
      obtain ⟨h1, _⟩ := scan_success gc.gconf fuel ⟨0, none⟩ "/" r rfl guint_zero_lt hr he
      have hq : ∃ cs, gc.gconf.all_dirs d = .ok cs := by
        rcases hd with hd | hd
        · subst hd
          cases fuel with
          | zero => simp [walk_completes] at h1
          | succ k =>
            obtain ⟨cs, hq, _⟩ := walk_completes_children gc.gconf k "/" h1 root_not_blacklisted
            exact ⟨cs, hq⟩
        · exact discovered_query_ok gc.gconf fuel "/" d h1 root_not_blacklisted hd
      obtain ⟨cs, hq⟩ := hq
      rw [hfail] at hq
      cases hq
    | some x =>
      have hnil := (scan_failure gc.gconf fuel ⟨0, none⟩ "/" r rfl hr (by simp [he])).1
      subst hgc
      refine ⟨by simp [hok, he], by simp [herr, he], hnil, hnil, ?_⟩
      simp [gconf_cleaner_get_current_dir, hnil]
  refine ⟨part1, ?_⟩
  intro rank hrank fuel hfuel
  obtain ⟨r, hr⟩ := scan_total gc.gconf rank hrank fuel ⟨0, none⟩ "/" (Or.inr hfuel)
  have hupd : gconf_cleaner_update fuel gc error =
      some (r.st.error.isNone,
        { gconf := gc.gconf, dirs := r.retval, current_dir := r.retval,
          n_dirs := r.st.n_dirs, n_pairs := 0, n_unknown_pairs := 0, initialized := true },
        r.st.error) := by
    simp only [gconf_cleaner_update, hr]
  obtain ⟨h1, h2, h3, h4, _⟩ := part1 fuel _ _ _ hupd
  cases he : r.st.error with
  | none => simp [he] at h2
  | some msg =>
    refine ⟨_, msg, ?_, h3, h4⟩
    rw [hupd, he]
    rfl

/-- C6 (amended): `gconf_cleaner_is_initialized` is false on a new cleaner and
true after every `gconf_cleaner_update` that returns, whether the update
succeeded or failed; fetching entries afterwards leaves it true. -/
theorem C6_initialized_after_any_update (fuel : Nat) (gc : GConfCleaner) (error : Option String)
    (ok : Bool) (gc2 : GConfCleaner) (error2 : Option String)
    (h : gconf_cleaner_update fuel gc error = some (ok, gc2, error2)) :
    gconf_cleaner_is_initialized (gconf_cleaner_new gc.gconf) = false ∧
    gconf_cleaner_is_initialized gc2 = true ∧
    (∀ error3 pairs gc3 error4,
      gconf_cleaner_get_unknown_pairs_at_current_dir gc2 error3 = some (pairs, gc3, error4) →
      gconf_cleaner_is_initialized gc3 = true) := by
  obtain ⟨r, _, _, _, hgc⟩ := update_inv fuel gc error ok gc2 error2 h
  subst hgc
  refine ⟨rfl, rfl, ?_⟩
  intro error3 pairs gc3 error4 h3
  unfold gconf_cleaner_get_unknown_pairs_at_current_dir at h3
  simp only at h3
  split at h3
  · simp at h3
  · split at h3
    · simp only [Option.some.injEq, Prod.mk.injEq] at h3
      rw [← h3.2.1]; rfl
    · simp only [Option.some.injEq, Prod.mk.injEq] at h3
      rw [← h3.2.1]; rfl

/-! ## Evaluations on the concrete stores -/

theorem store1_update :
    gconf_cleaner_update 3 (gconf_cleaner_new store1) none = some (true, store1_scanned, none) :=
  rfl

theorem failing_update :
    gconf_cleaner_update 2 (gconf_cleaner_new failing_store) none =
      some (false, failing_scanned, some (dirs_error_message "/apps" "unreachable")) :=
  rfl

theorem failing_rank_decreasing : RankDecreasing failing_store failing_rank := by
  intro p cs c _ hq hc _
  by_cases hp : p = "/"
  · subst hp
    have : cs = ["/a", "/apps"] := by
      simp [failing_store] at hq
      exact hq.symm
    subst this
    simp only [List.mem_cons, List.mem_singleton, List.not_mem_nil, or_false] at hc
    rcases hc with hc | hc <;> subst hc <;> decide
  · by_cases hp2 : p = "/apps"
    · simp [failing_store, hp, hp2] at hq
    · simp [failing_store, hp, hp2] at hq
      subst hq
      simp at hc

theorem wide_root_dirs : wide_store.all_dirs "/" = .ok wide_children := rfl

theorem wide_child_basename (k : Nat) :
    g_basename (wide_child k) = String.mk (List.replicate (k + 1) 'a') := by
  have hall : ∀ c ∈ List.replicate (k + 1) 'a', (c != '/') = true := by
    intro c hc
    rw [List.eq_of_mem_replicate hc]
    decide
  have htw : List.takeWhile (fun c => c != '/') (List.replicate (k + 1) 'a' ++ ['/']) =
      List.replicate (k + 1) 'a' := by
    rw [List.takeWhile_append_of_pos hall]
    simp
  unfold g_basename wide_child
  simp only [List.reverse_cons, List.reverse_replicate]
  rw [htw, List.reverse_replicate]

theorem wide_child_not_blacklisted (k : Nat) : is_blacklisted (wide_child k) = false := by
  have hne : ∀ b ∈ blacklist, String.mk (List.replicate (k + 1) 'a') ≠ b := by
    intro b hb heq
    have hhead : b.data.head? = some 'a' := by
      rw [← heq]
      rfl
    revert hhead
    simp only [blacklist, List.mem_cons, List.mem_singleton, List.not_mem_nil, or_false] at hb
    rcases hb with h | h | h | h | h | h | h <;> subst h <;> decide
  unfold is_blacklisted
  rw [wide_child_basename, List.any_eq_false]
  intro b hb
  simpa using hne b hb

theorem wide_child_dirs (k : Nat) : wide_store.all_dirs (wide_child k) = .ok [] := by
  have hne : wide_child k ≠ "/" := by
    intro heq
    have hlen : (wide_child k).data.length = ("/" : String).data.length := by rw [heq]
    simp [wide_child] at hlen
  simp [wide_store, hne]

theorem wide_walk_completes : walk_completes wide_store 2 "/" = true := by
  rw [walk_completes]
  simp only [wide_root_dirs, root_not_blacklisted, Bool.false_or, List.all_eq_true]
  intro c hc
  unfold wide_children at hc
  obtain ⟨k, _, rfl⟩ := List.mem_map.1 hc
  rw [walk_completes]
  simp [wide_child_dirs]

theorem wide_listing (l : List Nat) :
    ((l.map wide_child).filter not_blocked).flatMap
      (fun c => c :: preorder wide_store 1 c) = l.map wide_child := by
  induction l with
  | nil => rfl
  | cons k l ih =>
    have h1 : not_blocked (wide_child k) = true := by
      simp [not_blocked, wide_child_not_blacklisted]
    have h2 : preorder wide_store 1 (wide_child k) = [] := by
      rw [preorder]
      simp [wide_child_dirs]
    rw [List.map_cons, List.filter_cons, h1, if_pos rfl, List.flatMap_cons, ih, h2]
    rfl

theorem wide_preorder : preorder wide_store 2 "/" = wide_children := by
  rw [preorder]
  simp only [wide_root_dirs]
  unfold wide_children
  exact wide_listing (List.range GUINT_MOD)

theorem wide_children_length : wide_children.length = GUINT_MOD := by
  unfold wide_children
  rw [List.length_map, List.length_range]

theorem update_of_scan (fuel : Nat) (gc : GConfCleaner) (error : Option String) (r : ScanResult)
    (h : _gconf_cleaner_all_dirs_recursively gc.gconf fuel ⟨0, none⟩ "/" = some r) :
    gconf_cleaner_update fuel gc error =
      some (r.st.error.isNone,
        { gconf := gc.gconf, dirs := r.retval, current_dir := r.retval,
          n_dirs := r.st.n_dirs, n_pairs := 0, n_unknown_pairs := 0, initialized := true },
        r.st.error) := by
  simp only [gconf_cleaner_update, h]

theorem wide_scan :
    _gconf_cleaner_all_dirs_recursively wide_store 2 ⟨0, none⟩ "/" =
      some ⟨wide_children, false, ⟨0, none⟩⟩ := by
  obtain ⟨r, hr, he⟩ := scan_complete wide_store 2 ⟨0, none⟩ "/" rfl wide_walk_completes
  obtain ⟨_, h2, h3, h4⟩ :=
    scan_success wide_store 2 ⟨0, none⟩ "/" r rfl guint_zero_lt hr he
  have hl : r.retval = wide_children := by
    rw [h3]
    simp only [scan_list, root_not_blacklisted, Bool.false_eq_true, if_false]
    exact wide_preorder
  have hn : r.st.n_dirs = 0 := by
    rw [h4, hl, wide_children_length]
    show (0 + GUINT_MOD) % GUINT_MOD = 0
    rw [Nat.zero_add, Nat.mod_self]
  rw [hr]
  obtain ⟨l, b, ⟨n, e⟩⟩ := r
  simp only at hl hn he h2
  rw [hl, hn, he, h2, root_not_blacklisted]

theorem wide_update :
    gconf_cleaner_update 2 (gconf_cleaner_new wide_store) none =
      some (true, wide_scanned, none) :=
  update_of_scan 2 (gconf_cleaner_new wide_store) none _ wide_scan

/-- C1 at `store1`: `/schemas` is left out of the list of three directories. -/
theorem C1_witness :
    gconf_cleaner_update 3 (gconf_cleaner_new store1) none = some (true, store1_scanned, none) ∧
    ((∀ d ∈ store1_scanned.dirs, g_basename d ∉ blacklist ∧ Discovered store1 "/" d) ∧
     (true = true →
        gconf_cleaner_n_dirs store1_scanned = store1_scanned.dirs.length % GUINT_MOD) ∧
     gconf_cleaner_update 3
        { gconf_cleaner_new store1 with gconf := without_blacklisted store1 } none =
      some (true, { store1_scanned with gconf := without_blacklisted store1 }, none)) :=
  ⟨store1_update,
    C1_blacklisted_never_listed_or_counted 3 (gconf_cleaner_new store1) none true
      store1_scanned none store1_update⟩

/-- C2 at `store1`: `/apps/myprefs` is listed. -/
theorem C2_witness :
    gconf_cleaner_update 3 (gconf_cleaner_new store1) none = some (true, store1_scanned, none) ∧
    ((∀ d, Discovered store1 "/" d → d ∈ store1_scanned.dirs) ∧
     (∀ p, is_blacklisted p = true ↔ g_basename p ∈ blacklist) ∧
     is_blacklisted "/apps/myprefs" = false) ∧
    "/apps/myprefs" ∈ store1_scanned.dirs :=
  ⟨store1_update,
    C2_every_reachable_directory_listed 3 (gconf_cleaner_new store1) none store1_scanned none
      store1_update,
    by decide⟩

/-- C3 at `store1`: the list is the pre-order listing. -/
theorem C3_witness :
    gconf_cleaner_update 3 (gconf_cleaner_new store1) none = some (true, store1_scanned, none) ∧
    (store1_scanned.dirs = preorder store1 3 "/" ∧
     (∀ fuel2, 3 ≤ fuel2 → store1_scanned.dirs = preorder store1 fuel2 "/") ∧
     "/" ∉ store1_scanned.dirs) :=
  ⟨store1_update,
    C3_directory_list_is_preorder 3 (gconf_cleaner_new store1) none store1_scanned none
      store1_update⟩

/-- C4 fails at `wide_store`, whose root has `2 ^ 32` different leaf children:
the scan succeeds with a list of `2 ^ 32` paths while `gconf_cleaner_n_dirs`
has wrapped to `0`. -/
theorem C4_counterexample :
    gconf_cleaner_update 2 (gconf_cleaner_new wide_store) none =
      some (true, wide_scanned, none) ∧
    gconf_cleaner_n_dirs wide_scanned = 0 ∧ wide_scanned.dirs.length = 4294967296 ∧
    gconf_cleaner_n_dirs wide_scanned ≠ wide_scanned.dirs.length := by
  have hlen : wide_scanned.dirs.length = 4294967296 := by
    show wide_children.length = 4294967296
    rw [wide_children_length]
    rfl
  refine ⟨wide_update, rfl, hlen, ?_⟩
  rw [hlen]
  show (0 : Nat) ≠ 4294967296
  omega

/-- C4 (amended) at `store1`. -/
theorem C4_witness :
    gconf_cleaner_update 3 (gconf_cleaner_new store1) none = some (true, store1_scanned, none) ∧
    (gconf_cleaner_n_dirs store1_scanned = store1_scanned.dirs.length % GUINT_MOD ∧
     (store1_scanned.dirs.length < GUINT_MOD →
        gconf_cleaner_n_dirs store1_scanned = store1_scanned.dirs.length)) :=
  ⟨store1_update,
    C4_n_dirs_is_length_mod 3 (gconf_cleaner_new store1) none store1_scanned none
      store1_update⟩

/-- C5 at `failing_store`, where the query for `/apps` fails. -/
theorem C5_witness :
    ("/apps" = "/" ∨ Discovered failing_store "/" "/apps") ∧
    failing_store.all_dirs "/apps" = .error "unreachable" ∧
    ((∀ fuel ok gc2 error2,
        gconf_cleaner_update fuel (gconf_cleaner_new failing_store) none =
          some (ok, gc2, error2) →
        ok = false ∧ error2.isSome = true ∧ gc2.dirs = [] ∧ gc2.current_dir = [] ∧
          gconf_cleaner_get_current_dir gc2 = none) ∧
     (∀ rank, RankDecreasing failing_store rank → ∀ fuel, rank "/" + 2 ≤ fuel →
        ∃ gc2 msg, gconf_cleaner_update fuel (gconf_cleaner_new failing_store) none =
            some (false, gc2, some msg) ∧
          gc2.dirs = [] ∧ gc2.current_dir = [])) ∧
    RankDecreasing failing_store failing_rank ∧
    (∃ gc2 msg, gconf_cleaner_update 3 (gconf_cleaner_new failing_store) none =
        some (false, gc2, some msg) ∧
      gc2.dirs = [] ∧ gc2.current_dir = []) :=
  have hd : "/apps" = "/" ∨ Discovered failing_store "/" "/apps" :=
    Or.inr (@Discovered.child failing_store "/" "/apps" ["/a", "/apps"] (by decide) rfl
      (by decide) (by decide))
  ⟨hd, rfl,
    C5_failed_scan_keeps_no_partial_list (gconf_cleaner_new failing_store) none "/apps"
      "unreachable" hd rfl,
    failing_rank_decreasing,
    (C5_failed_scan_keeps_no_partial_list (gconf_cleaner_new failing_store) none "/apps"
      "unreachable" hd rfl).2 failing_rank failing_rank_decreasing 3 (by decide)⟩

/-- C6 fails at `failing_store`: the update returns failure and
`gconf_cleaner_is_initialized` is true afterwards. -/
theorem C6_counterexample :
    gconf_cleaner_update 2 (gconf_cleaner_new failing_store) none =
      some (false, failing_scanned, some (dirs_error_message "/apps" "unreachable")) ∧
    gconf_cleaner_is_initialized failing_scanned = true :=
  ⟨failing_update, rfl⟩

/-- C6 (amended) at `failing_store`. -/
theorem C6_witness :
    gconf_cleaner_update 2 (gconf_cleaner_new failing_store) none =
      some (false, failing_scanned, some (dirs_error_message "/apps" "unreachable")) ∧
    (gconf_cleaner_is_initialized (gconf_cleaner_new failing_store) = false ∧
     gconf_cleaner_is_initialized failing_scanned = true ∧
     (∀ error3 pairs gc3 error4,
        gconf_cleaner_get_unknown_pairs_at_current_dir failing_scanned error3 =
          some (pairs, gc3, error4) →
        gconf_cleaner_is_initialized gc3 = true)) :=
  ⟨failing_update,
    C6_initialized_after_any_update 2 (gconf_cleaner_new failing_store) none false
      failing_scanned (some (dirs_error_message "/apps" "unreachable")) failing_update⟩

/-! ## The per-directory classification -/

theorem is_unknown_iff (g : GConfEngine) (err : Option String) (e : GConfEntry) :
    is_unknown g err e = true ↔
      e.value ≠ none ∧
        (e.schema_name = none ∨
          ∃ name, e.schema_name = some name ∧ (g.get_schema name err).1 = none) := by
  unfold is_unknown lookup_schema
  cases hv : e.value with
  | none => simp
  | some v =>
    cases hn : e.schema_name with
    | none => simp
    | some name => simp

theorem unknown_from_append (g : GConfEngine) :
    ∀ (pre post : List GConfEntry) (err : Option String),
      unknown_from g err (pre ++ post) =
        unknown_from g err pre ++ unknown_from g (err_after g err pre) post := by
  intro pre
  induction pre with
  | nil => intro post err; rfl
  | cons e rest ih =>
    intro post err
    rw [List.cons_append, unknown_from, unknown_from, err_after, ih]
    split
    · rfl
    · rfl

/-- The entry after `pre` is judged by the lookup made with the `err` that the
lookups of `pre` have left. -/
theorem unknown_from_split (g : GConfEngine) (pre post : List GConfEntry) (e : GConfEntry)
    (err : Option String) :
    unknown_from g err (pre ++ e :: post) =
      unknown_from g err pre ++
        (if is_unknown g (err_after g err pre) e then [e] else []) ++
        unknown_from g (lookup_schema g e.schema_name (err_after g err pre)).2 post := by
  rw [unknown_from_append, unknown_from]
  split <;> simp

theorem unknown_from_value (g : GConfEngine) :
    ∀ (es : List GConfEntry) (err : Option String),
      ∀ e ∈ unknown_from g err es, ∃ v, e.value = some v := by
  intro es
  induction es with
  | nil => intro err e he; simp [unknown_from] at he
  | cons a rest ih =>
    intro err e he
    rw [unknown_from] at he
    split at he
    · rename_i hu
      rcases List.mem_cons.1 he with h | h
      · subst h
        unfold is_unknown at hu
        cases hv : e.value with
        | none => simp [hv] at hu
        | some v => exact ⟨v, rfl⟩
      · exact ih _ e h
    · exact ih _ e he

theorem unknown_from_length_le (g : GConfEngine) :
    ∀ (es : List GConfEntry) (err : Option String),
      (unknown_from g err es).length ≤ es.length := by
  intro es
  induction es with
  | nil => intro err; simp [unknown_from]
  | cons a rest ih =>
    intro err
    rw [unknown_from]
    split
    · simp only [List.length_cons]
      exact Nat.succ_le_succ (ih _)
    · simp only [List.length_cons]
      exact Nat.le_succ_of_le (ih _)

theorem pairs_loop_spec (g : GConfEngine) :
    ∀ (es : List GConfEntry) (s : PairsState),
      (pairs_loop g es s).n_pairs = guint_incr^[es.length] s.n_pairs ∧
      (pairs_loop g es s).n_unknown_pairs =
        guint_incr^[(unknown_from g s.err es).length] s.n_unknown_pairs ∧
      (pairs_loop g es s).retval = s.retval ++ (unknown_from g s.err es).flatMap pair_of := by
  intro es
  induction es with
  | nil => intro s; simp [pairs_loop, unknown_from]
  | cons e rest ih =>
    intro s
    rw [pairs_loop, unknown_from]
    simp only
    cases hl : (lookup_schema g e.schema_name s.err).1 with
    | some sch =>
      have hu : is_unknown g s.err e = false := by
        simp [is_unknown, hl]
      simp only [hu, Bool.false_eq_true, if_false, List.length_cons,
        Function.iterate_succ_apply]
      exact ih ⟨guint_incr s.n_pairs, s.n_unknown_pairs, s.retval,
        (lookup_schema g e.schema_name s.err).2⟩
    | none =>
      cases hv : e.value with
      | none =>
        have hu : is_unknown g s.err e = false := by simp [is_unknown, hv]
        simp only [hu, Bool.false_eq_true, if_false, List.length_cons,
          Function.iterate_succ_apply]
        exact ih ⟨guint_incr s.n_pairs, s.n_unknown_pairs, s.retval,
          (lookup_schema g e.schema_name s.err).2⟩
      | some v =>
        have hu : is_unknown g s.err e = true := by simp [is_unknown, hv, hl]
        simp only [hu, if_true, List.length_cons, Function.iterate_succ_apply,
          List.flatMap_cons]
        obtain ⟨h1, h2, h3⟩ := ih ⟨guint_incr s.n_pairs, guint_incr s.n_unknown_pairs,
          s.retval ++ [PairItem.key e.key] ++ [PairItem.value v],
          (lookup_schema g e.schema_name s.err).2⟩
        refine ⟨h1, h2, ?_⟩
        rw [h3]
        simp [pair_of, hv]

/-- The whole effect of one call at a valid cursor. -/
theorem fetch_at_cursor (gc : GConfCleaner) (error : Option String) (path : String)
    (next : List String) (hcur : gc.current_dir = path :: next) :
    gconf_cleaner_get_unknown_pairs_at_current_dir gc error =
      some (match gc.gconf.all_entries path with
        | .error e =>
          ([], { gc with current_dir := next }, some (entries_error_message path e))
        | .ok es =>
          (unknown_pairs gc.gconf es,
            { gc with current_dir := next,
                      n_pairs := guint_incr^[es.length] gc.n_pairs,
                      n_unknown_pairs :=
                        guint_incr^[(unknown_entries gc.gconf es).length]
                          gc.n_unknown_pairs },
            none)) := by
  unfold gconf_cleaner_get_unknown_pairs_at_current_dir
  simp only [hcur]
  cases hq : gc.gconf.all_entries path with
  | error e => rfl
  | ok es =>
    obtain ⟨h1, h2, h3⟩ :=
      pairs_loop_spec gc.gconf es ⟨gc.n_pairs, gc.n_unknown_pairs, [], none⟩
    simp only [h1, h2, h3, List.nil_append, unknown_pairs, unknown_entries]

theorem fetch_step (gc : GConfCleaner) (error : Option String) (path : String)
    (next : List String) (hcur : gc.current_dir = path :: next) :
    ∃ pairs gc2 error2,
      gconf_cleaner_get_unknown_pairs_at_current_dir gc error = some (pairs, gc2, error2) ∧
      gc2.current_dir = next ∧ gc2.gconf = gc.gconf ∧ gc2.dirs = gc.dirs ∧
      (∀ msg, gc.gconf.all_entries path = .error msg →
        pairs = [] ∧ error2 = some (entries_error_message path msg)) ∧
      (∀ es, gc.gconf.all_entries path = .ok es →
        pairs = unknown_pairs gc.gconf es ∧ error2 = none) := by
  rw [fetch_at_cursor gc error path next hcur]
  cases hq : gc.gconf.all_entries path with
  | error e =>
    refine ⟨_, _, _, rfl, rfl, rfl, rfl, ?_, ?_⟩
    · intro msg hm; cases hm; exact ⟨rfl, rfl⟩
    · intro es hm; cases hm
  | ok es =>
    refine ⟨_, _, _, rfl, rfl, rfl, rfl, ?_, ?_⟩
    · intro msg hm; cases hm
    · intro es2 hm; cases hm; exact ⟨rfl, rfl⟩

/-- After `k` calls the cursor has moved `k` places, whatever the calls returned. -/
theorem fetch_n_cursor :
    ∀ (k : Nat) (gc : GConfCleaner) (error : Option String), k ≤ gc.current_dir.length →
      ∃ gck ek, fetch_n k gc error = some (gck, ek) ∧
        gck.current_dir = gc.current_dir.drop k ∧ gck.gconf = gc.gconf ∧
        gck.dirs = gc.dirs := by
  intro k
  induction k with
  | zero => intro gc error _; exact ⟨gc, error, rfl, rfl, rfl, rfl⟩
  | succ k ih =>
    intro gc error hk
    cases hcur : gc.current_dir with
    | nil => rw [hcur] at hk; simp at hk
    | cons path next =>
      obtain ⟨pairs, gc2, error2, hcall, hc2, hg2, hd2, _, _⟩ :=
        fetch_step gc error path next hcur
      have hk2 : k ≤ gc2.current_dir.length := by
        rw [hc2]; rw [hcur] at hk; simpa using hk
      obtain ⟨gck, ek, hf, h1, h2, h3⟩ := ih gc2 error2 hk2
      refine ⟨gck, ek, ?_, ?_, h2.trans hg2, h3.trans hd2⟩
      · simp only [fetch_n, hcall]; exact hf
      · rw [h1, hc2]; rfl

theorem err_after_append (g : GConfEngine) :
    ∀ (pre post : List GConfEntry) (err : Option String),
      err_after g err (pre ++ post) = err_after g (err_after g err pre) post := by
  intro pre
  induction pre with
  | nil => intro post err; rfl
  | cons e rest ih =>
    intro post err
    rw [List.cons_append, err_after, err_after, ih]

/-- C8: an entry with a null value, wherever it stands in a directory whose
entry query succeeds, adds nothing to the returned list and no increment to
`n_unknown_pairs`, and adds one increment to `n_pairs`: the list and
`n_unknown_pairs` are made of the unknown entries before it and of those after
it, and `n_pairs` gets one increment more than these entries account for. -/
theorem C8_null_value_counted_not_returned (gc : GConfCleaner) (error : Option String)
    (path : String) (next : List String) (pre post : List GConfEntry) (e : GConfEntry)
    (hcur : gc.current_dir = path :: next)
    (hq : gc.gconf.all_entries path = .ok (pre ++ e :: post)) (hv : e.value = none) :
    ∃ pairs gc2 error2,
      gconf_cleaner_get_unknown_pairs_at_current_dir gc error = some (pairs, gc2, error2) ∧
      pairs = unknown_pairs gc.gconf pre ++
        (unknown_from gc.gconf (err_after gc.gconf none (pre ++ [e])) post).flatMap pair_of ∧
      gconf_cleaner_n_unknown_pairs gc2 =
        guint_incr^[(unknown_entries gc.gconf pre).length +
          (unknown_from gc.gconf (err_after gc.gconf none (pre ++ [e])) post).length]
          gc.n_unknown_pairs ∧
      gconf_cleaner_n_pairs gc2 =
        guint_incr (guint_incr^[pre.length + post.length] gc.n_pairs) := by
  have hu : ∀ err, is_unknown gc.gconf err e = false := by
    intro err
    simp [is_unknown, hv]
  have hsplit : unknown_entries gc.gconf (pre ++ e :: post) =
      unknown_entries gc.gconf pre ++
        unknown_from gc.gconf (err_after gc.gconf none (pre ++ [e])) post := by
    unfold unknown_entries
    rw [unknown_from_append, unknown_from, hu, err_after_append]
    rfl
  rw [fetch_at_cursor gc error path next hcur, hq]
  refine ⟨_, _, _, rfl, ?_, ?_, ?_⟩
  · simp only [unknown_pairs, hsplit, List.flatMap_append]
  · simp only [gconf_cleaner_n_unknown_pairs, hsplit, List.length_append]
  · simp only [gconf_cleaner_n_pairs, List.length_append, List.length_cons]
    rw [← Function.iterate_succ_apply' guint_incr]
    congr 1

/-- C9: after a successful `gconf_cleaner_update`, for every `k` below the
length of the directory list, `k` calls leave a valid cursor at the `k`-th
directory and the next call returns what the entry query of that directory
determines; after as many calls as the list is long the cursor is exhausted,
`gconf_cleaner_get_current_dir` yields no path and a further call is invalid. -/
theorem C9_cursor_walks_the_list (fuel : Nat) (gc : GConfCleaner) (error : Option String)
    (gc1 : GConfCleaner) (error1 : Option String)
    (h : gconf_cleaner_update fuel gc error = some (true, gc1, error1)) :
    (∀ (k : Nat) (hk : k < gc1.dirs.length),
      ∃ gck ek, fetch_n k gc1 error1 = some (gck, ek) ∧
        gconf_cleaner_get_current_dir gck = some gc1.dirs[k] ∧
        ∃ pairs gck2 ek2,
          gconf_cleaner_get_unknown_pairs_at_current_dir gck ek = some (pairs, gck2, ek2) ∧
          (∀ msg, gc.gconf.all_entries gc1.dirs[k] = .error msg →
            pairs = [] ∧ ek2 = some (entries_error_message gc1.dirs[k] msg)) ∧
          (∀ es, gc.gconf.all_entries gc1.dirs[k] = .ok es →
            pairs = unknown_pairs gc.gconf es ∧ ek2 = none)) ∧
    (∃ gcN eN, fetch_n gc1.dirs.length gc1 error1 = some (gcN, eN) ∧
      gcN.current_dir = [] ∧ gconf_cleaner_get_current_dir gcN = none ∧
      ∀ e, gconf_cleaner_get_unknown_pairs_at_current_dir gcN e = none) := by
  obtain ⟨_, _, hcur, _, _, _, hg, _⟩ := update_success fuel gc error gc1 error1 h
  refine ⟨?_, ?_⟩
  · intro k hk
    obtain ⟨gck, ek, hf, h1, h2, _⟩ :=
      fetch_n_cursor k gc1 error1 (by rw [hcur]; exact Nat.le_of_lt hk)
    rw [hcur] at h1
    have hdrop : gck.current_dir = gc1.dirs[k] :: gc1.dirs.drop (k + 1) := by
      rw [h1]; exact List.drop_eq_getElem_cons hk
    obtain ⟨pairs, gck2, ek2, hcall, _, _, _, he, ho⟩ :=
      fetch_step gck ek gc1.dirs[k] (gc1.dirs.drop (k + 1)) hdrop
    rw [h2, hg] at he ho
    refine ⟨gck, ek, hf, ?_, pairs, gck2, ek2, hcall, he, ho⟩
    unfold gconf_cleaner_get_current_dir
    rw [hdrop]
  · obtain ⟨gcN, eN, hf, h1, _, _⟩ :=
      fetch_n_cursor gc1.dirs.length gc1 error1 (by rw [hcur])
    rw [hcur, List.drop_length] at h1
    refine ⟨gcN, eN, hf, h1, ?_, ?_⟩
    · simp [gconf_cleaner_get_current_dir, h1]
    · intro e
      simp [gconf_cleaner_get_unknown_pairs_at_current_dir, h1]

/-- C10: at a valid cursor whose entry query fails, the call returns the empty
list with an error set, leaves `n_pairs` and `n_unknown_pairs` as they were,
and leaves the cursor exactly one directory further; later calls only move it
further on. -/
theorem C10_failed_fetch_advances_cursor (gc : GConfCleaner) (error : Option String)
    (path : String) (next : List String) (e : String)
    (hcur : gc.current_dir = path :: next)
    (hq : gc.gconf.all_entries path = .error e) :
    ∃ gc2, gconf_cleaner_get_unknown_pairs_at_current_dir gc error =
        some ([], gc2, some (entries_error_message path e)) ∧
      gconf_cleaner_n_pairs gc2 = gconf_cleaner_n_pairs gc ∧
      gconf_cleaner_n_unknown_pairs gc2 = gconf_cleaner_n_unknown_pairs gc ∧
      gc2.current_dir = next ∧ gc2.dirs = gc.dirs ∧
      gconf_cleaner_get_current_dir gc2 = next.head? ∧
      (∀ k, k ≤ next.length → ∃ gck ek,
        fetch_n k gc2 (some (entries_error_message path e)) = some (gck, ek) ∧
        gck.current_dir = next.drop k) := by
  rw [fetch_at_cursor gc error path next hcur, hq]
  refine ⟨_, rfl, rfl, rfl, rfl, rfl, ?_, ?_⟩
  · simp only [gconf_cleaner_get_current_dir]
    cases next <;> rfl
  · intro k hk
    obtain ⟨gck, ek, hf, h1, _, _⟩ :=
      fetch_n_cursor k { gc with current_dir := next }
        (some (entries_error_message path e)) hk
    exact ⟨gck, ek, hf, h1⟩

theorem entry_update :
    gconf_cleaner_update 2 (gconf_cleaner_new entry_store) none =
      some (true, entry_scanned, none) :=
  rfl

theorem entry_fetch_apps :
    gconf_cleaner_get_unknown_pairs_at_current_dir entry_scanned none =
      some ([PairItem.key "/apps/plain", PairItem.value ⟨"1"⟩,
             PairItem.key "/apps/broken", PairItem.value ⟨"3"⟩,
             PairItem.key "/apps/gone", PairItem.value ⟨"4"⟩], entry_after_apps, none) :=
  rfl

theorem stale_update :
    gconf_cleaner_update 2 (gconf_cleaner_new stale_store) none =
      some (true, stale_scanned, none) :=
  rfl

/-- C7 fails at `/d1` of `stale_store`: the entry `/d1/known` has a resolvable
schema (its lookup with `err` unset yields the schema), but it stands after
`/d1/broken`, whose failed lookup has left the local `err` set; the engine
then returns `NULL` for `/d1/known` and the call returns its key and value
among the unknown pairs, with `n_unknown_pairs = 3`. -/
theorem C7_resolvable_schema_returned_after_failed_lookup :
    stale_store.all_entries "/d1" = .ok d1_entries ∧
    stale_store.get_schema "/schemas/d1/known" none =
      (some ⟨"/schemas/d1/known"⟩, none) ∧
    stale_store.get_schema "/schemas/d1/broken" none = (none, some "backend failure") ∧
    stale_store.get_schema "/schemas/d1/known" (some "backend failure") =
      (none, some "backend failure") ∧
    gconf_cleaner_update 2 (gconf_cleaner_new stale_store) none =
      some (true, stale_scanned, none) ∧
    gconf_cleaner_get_unknown_pairs_at_current_dir stale_scanned none =
      some ([PairItem.key "/d1/broken", PairItem.value ⟨"1"⟩,
             PairItem.key "/d1/known", PairItem.value ⟨"2"⟩,
             PairItem.key "/d1/plain", PairItem.value ⟨"3"⟩], stale_after, none) ∧
    gconf_cleaner_n_unknown_pairs stale_after = 3 :=
  ⟨rfl, rfl, rfl, rfl, stale_update, rfl, rfl⟩

/-- C8 at `/apps` of `entry_store`, for the entry `/apps/null`. -/
theorem C8_witness :
    entry_scanned.current_dir = "/apps" :: ["/desktop"] ∧
    entry_store.all_entries "/apps" =
      .ok ([⟨"/apps/plain", some ⟨"1"⟩, none⟩,
            ⟨"/apps/known", some ⟨"2"⟩, some "/schemas/apps/known"⟩] ++
          ⟨"/apps/null", none, none⟩ ::
          [⟨"/apps/broken", some ⟨"3"⟩, some "/schemas/apps/broken"⟩,
           ⟨"/apps/gone", some ⟨"4"⟩, some "/schemas/apps/gone"⟩]) ∧
    (⟨"/apps/null", none, none⟩ : GConfEntry).value = none ∧
    ∃ pairs gc2 error2,
      gconf_cleaner_get_unknown_pairs_at_current_dir entry_scanned none =
        some (pairs, gc2, error2) ∧
      pairs =
        unknown_pairs entry_store
            [⟨"/apps/plain", some ⟨"1"⟩, none⟩,
             ⟨"/apps/known", some ⟨"2"⟩, some "/schemas/apps/known"⟩] ++
          (unknown_from entry_store
            (err_after entry_store none
              ([⟨"/apps/plain", some ⟨"1"⟩, none⟩,
                ⟨"/apps/known", some ⟨"2"⟩, some "/schemas/apps/known"⟩] ++
                [⟨"/apps/null", none, none⟩]))
            [⟨"/apps/broken", some ⟨"3"⟩, some "/schemas/apps/broken"⟩,
             ⟨"/apps/gone", some ⟨"4"⟩, some "/schemas/apps/gone"⟩]).flatMap pair_of ∧
      gconf_cleaner_n_unknown_pairs gc2 =
        guint_incr^[(unknown_entries entry_store
              [⟨"/apps/plain", some ⟨"1"⟩, none⟩,
               ⟨"/apps/known", some ⟨"2"⟩, some "/schemas/apps/known"⟩]).length +
            (unknown_from entry_store
              (err_after entry_store none
                ([⟨"/apps/plain", some ⟨"1"⟩, none⟩,
                  ⟨"/apps/known", some ⟨"2"⟩, some "/schemas/apps/known"⟩] ++
                  [⟨"/apps/null", none, none⟩]))
              [⟨"/apps/broken", some ⟨"3"⟩, some "/schemas/apps/broken"⟩,
               ⟨"/apps/gone", some ⟨"4"⟩, some "/schemas/apps/gone"⟩]).length]
          entry_scanned.n_unknown_pairs ∧
      gconf_cleaner_n_pairs gc2 =
        guint_incr (guint_incr^[([⟨"/apps/plain", some ⟨"1"⟩, none⟩,
              ⟨"/apps/known", some ⟨"2"⟩, some "/schemas/apps/known"⟩] :
              List GConfEntry).length +
            ([⟨"/apps/broken", some ⟨"3"⟩, some "/schemas/apps/broken"⟩,
              ⟨"/apps/gone", some ⟨"4"⟩, some "/schemas/apps/gone"⟩] :
              List GConfEntry).length] entry_scanned.n_pairs) :=
  ⟨rfl, rfl, rfl,
    C8_null_value_counted_not_returned entry_scanned none "/apps" ["/desktop"]
      [⟨"/apps/plain", some ⟨"1"⟩, none⟩,
       ⟨"/apps/known", some ⟨"2"⟩, some "/schemas/apps/known"⟩]
      [⟨"/apps/broken", some ⟨"3"⟩, some "/schemas/apps/broken"⟩,
       ⟨"/apps/gone", some ⟨"4"⟩, some "/schemas/apps/gone"⟩]
      ⟨"/apps/null", none, none⟩ rfl rfl rfl⟩

/-- C9 at `entry_store`: two directories, the second of which fails to list
its entries. -/
theorem C9_witness :
    gconf_cleaner_update 2 (gconf_cleaner_new entry_store) none =
      some (true, entry_scanned, none) ∧
    ((∀ (k : Nat) (hk : k < entry_scanned.dirs.length),
      ∃ gck ek, fetch_n k entry_scanned none = some (gck, ek) ∧
        gconf_cleaner_get_current_dir gck = some entry_scanned.dirs[k] ∧
        ∃ pairs gck2 ek2,
          gconf_cleaner_get_unknown_pairs_at_current_dir gck ek = some (pairs, gck2, ek2) ∧
          (∀ msg, entry_store.all_entries entry_scanned.dirs[k] = .error msg →
            pairs = [] ∧ ek2 = some (entries_error_message entry_scanned.dirs[k] msg)) ∧
          (∀ es, entry_store.all_entries entry_scanned.dirs[k] = .ok es →
            pairs = unknown_pairs entry_store es ∧ ek2 = none)) ∧
     (∃ gcN eN, fetch_n entry_scanned.dirs.length entry_scanned none = some (gcN, eN) ∧
       gcN.current_dir = [] ∧ gconf_cleaner_get_current_dir gcN = none ∧
       ∀ e, gconf_cleaner_get_unknown_pairs_at_current_dir gcN e = none)) :=
  ⟨entry_update,
    C9_cursor_walks_the_list 2 (gconf_cleaner_new entry_store) none entry_scanned none
      entry_update⟩

/-- C10 at `/desktop` of `entry_store`, after the entries of `/apps` were
fetched. -/
theorem C10_witness :
    entry_after_apps.current_dir = "/desktop" :: [] ∧
    entry_store.all_entries "/desktop" = .error "stale lock" ∧
    ∃ gc2, gconf_cleaner_get_unknown_pairs_at_current_dir entry_after_apps none =
        some ([], gc2, some (entries_error_message "/desktop" "stale lock")) ∧
      gconf_cleaner_n_pairs gc2 = gconf_cleaner_n_pairs entry_after_apps ∧
      gconf_cleaner_n_unknown_pairs gc2 = gconf_cleaner_n_unknown_pairs entry_after_apps ∧
      gc2.current_dir = [] ∧ gc2.dirs = entry_after_apps.dirs ∧
      gconf_cleaner_get_current_dir gc2 = ([] : List String).head? ∧
      (∀ k, k ≤ ([] : List String).length → ∃ gck ek,
        fetch_n k gc2 (some (entries_error_message "/desktop" "stale lock")) =
          some (gck, ek) ∧
        gck.current_dir = ([] : List String).drop k) :=
  ⟨rfl, rfl,
    C10_failed_fetch_advances_cursor entry_after_apps none "/desktop" [] "stale lock" rfl rfl⟩

/-! ## The update depends on the store only -/

/-- The update is the walk from `/` with the counters at zero; nothing else of
the cleaner is read. -/
theorem update_eq (fuel : Nat) (gc : GConfCleaner) (error : Option String) :
    gconf_cleaner_update fuel gc error =
      (_gconf_cleaner_all_dirs_recursively gc.gconf fuel ⟨0, none⟩ "/").map
        (fun r => (r.st.error.isNone,
          ({ gconf := gc.gconf, dirs := r.retval, current_dir := r.retval,
             n_dirs := r.st.n_dirs, n_pairs := 0, n_unknown_pairs := 0,
             initialized := true } : GConfCleaner),
          r.st.error)) := by
  cases hr : _gconf_cleaner_all_dirs_recursively gc.gconf fuel ⟨0, none⟩ "/" with
  | none => simp only [gconf_cleaner_update, hr, Option.map_none']
  | some r => rw [update_of_scan fuel gc error r hr]; rfl

theorem update_congr (fuel : Nat) (gcA gcB : GConfCleaner) (errorA errorB : Option String)
    (hstore : gcA.gconf = gcB.gconf) :
    gconf_cleaner_update fuel gcA errorA = gconf_cleaner_update fuel gcB errorB := by
  rw [update_eq, update_eq, hstore]

/-- Two returning walks from the same state agree, whatever their fuel. -/
theorem scan_deterministic (g : GConfEngine) (fuel fuel2 : Nat) (st : ScanState)
    (path : String) (r r2 : ScanResult)
    (h : _gconf_cleaner_all_dirs_recursively g fuel st path = some r)
    (h2 : _gconf_cleaner_all_dirs_recursively g fuel2 st path = some r2) : r = r2 := by
  rcases Nat.le_total fuel fuel2 with hle | hle
  · have := scan_fuel_le g fuel fuel2 hle st path r h
    rw [h2] at this
    exact (Option.some.inj this).symm
  · have := scan_fuel_le g fuel2 fuel hle st path r2 h2
    rw [h] at this
    exact Option.some.inj this

theorem update_deterministic (fuel fuel2 : Nat) (gc : GConfCleaner)
    (error error2 : Option String) (x y : Bool × GConfCleaner × Option String)
    (h : gconf_cleaner_update fuel gc error = some x)
    (h2 : gconf_cleaner_update fuel2 gc error2 = some y) : x = y := by
  rw [update_eq] at h h2
  cases hr : _gconf_cleaner_all_dirs_recursively gc.gconf fuel ⟨0, none⟩ "/" with
  | none => simp [hr] at h
  | some r =>
    cases hr2 : _gconf_cleaner_all_dirs_recursively gc.gconf fuel2 ⟨0, none⟩ "/" with
    | none => simp [hr2] at h2
    | some r2 =>
      have hrr := scan_deterministic gc.gconf fuel fuel2 ⟨0, none⟩ "/" r r2 hr hr2
      subst hrr
      rw [hr] at h
      rw [hr2] at h2
      simp only [Option.map_some', Option.some.injEq] at h h2
      rw [← h, ← h2]

/-- C12: a second `gconf_cleaner_update` on the same store returns what the
first returned and leaves the same cleaner: same return value, directory list,
`n_dirs`, `n_pairs` and `n_unknown_pairs`; so does every second update that
returns, whatever its fuel. -/
theorem C12_update_twice_same_result (fuel : Nat) (gc : GConfCleaner)
    (error : Option String) (ok : Bool) (gc2 : GConfCleaner) (error2 : Option String)
    (h : gconf_cleaner_update fuel gc error = some (ok, gc2, error2)) :
    gconf_cleaner_update fuel gc2 error2 = some (ok, gc2, error2) ∧
    (∀ fuel2 ok2 gc3 error3,
      gconf_cleaner_update fuel2 gc2 error2 = some (ok2, gc3, error3) →
      ok2 = ok ∧ gc3.dirs = gc2.dirs ∧
        gconf_cleaner_n_dirs gc3 = gconf_cleaner_n_dirs gc2 ∧
        gconf_cleaner_n_pairs gc3 = gconf_cleaner_n_pairs gc2 ∧
        gconf_cleaner_n_unknown_pairs gc3 = gconf_cleaner_n_unknown_pairs gc2 ∧
        gc3.current_dir = gc2.current_dir) := by
  obtain ⟨r, _, _, _, hgc⟩ := update_inv fuel gc error ok gc2 error2 h
  have hstore : gc2.gconf = gc.gconf := by rw [hgc]
  have hsame : gconf_cleaner_update fuel gc2 error2 = some (ok, gc2, error2) := by
    rw [update_congr fuel gc2 gc error2 error hstore]
    exact h
  refine ⟨hsame, ?_⟩
  intro fuel2 ok2 gc3 error3 h3
  have heq := update_deterministic fuel2 fuel gc2 error2 error2 _ _ h3 hsame
  simp only [Prod.mk.injEq] at heq
  obtain ⟨h1, h2, _⟩ := heq
  subst h1
  subst h2
  exact ⟨rfl, rfl, rfl, rfl, rfl, rfl⟩

/-- C13: a successful `gconf_cleaner_update` gives the same cleaner from every
prior state over the same store; its cursor is at the head of the new
directory list and `n_pairs` and `n_unknown_pairs` are zero. -/
theorem C13_update_resets_cursor_and_counters (fuel : Nat) (gcA gcB : GConfCleaner)
    (errorA errorB : Option String) (gc2 : GConfCleaner) (error2 : Option String)
    (hstore : gcA.gconf = gcB.gconf)
    (h : gconf_cleaner_update fuel gcA errorA = some (true, gc2, error2)) :
    gconf_cleaner_update fuel gcB errorB = some (true, gc2, error2) ∧
    gc2.current_dir = gc2.dirs ∧
    gconf_cleaner_get_current_dir gc2 = gc2.dirs.head? ∧
    gconf_cleaner_n_pairs gc2 = 0 ∧ gconf_cleaner_n_unknown_pairs gc2 = 0 := by
  obtain ⟨_, _, hcur, _, hp, hu, _, _⟩ := update_success fuel gcA errorA gc2 error2 h
  refine ⟨?_, hcur, ?_, hp, hu⟩
  · rw [← update_congr fuel gcA gcB errorA errorB hstore]
    exact h
  · unfold gconf_cleaner_get_current_dir
    rw [hcur]
    cases gc2.dirs <;> rfl

/-- C14: at a non-exhausted cursor `gconf_cleaner_get_current_dir` returns the
path at the cursor and leaves the cleaner as it was, and the next call of
`gconf_cleaner_get_unknown_pairs_at_current_dir` returns what the entry query
of that very path determines. -/
theorem C14_get_current_dir_reads_cursor (gc : GConfCleaner) (error : Option String)
    (path : String) (next : List String) (hcur : gc.current_dir = path :: next) :
    gconf_cleaner_get_current_dir gc = some path ∧
    gconf_cleaner_get_current_dir_step gc = (some path, gc) ∧
    ∃ pairs gc2 error2,
      gconf_cleaner_get_unknown_pairs_at_current_dir
        (gconf_cleaner_get_current_dir_step gc).2 error = some (pairs, gc2, error2) ∧
      (∀ msg, gc.gconf.all_entries path = .error msg →
        pairs = [] ∧ error2 = some (entries_error_message path msg)) ∧
      (∀ es, gc.gconf.all_entries path = .ok es →
        pairs = unknown_pairs gc.gconf es ∧ error2 = none) := by
  have hget : gconf_cleaner_get_current_dir gc = some path := by
    unfold gconf_cleaner_get_current_dir
    rw [hcur]
  refine ⟨hget, ?_, ?_⟩
  · unfold gconf_cleaner_get_current_dir_step
    rw [hget]
  · obtain ⟨pairs, gc2, error2, hcall, _, _, _, he, ho⟩ := fetch_step gc error path next hcur
    exact ⟨pairs, gc2, error2, hcall, he, ho⟩

/-- C12 at `store1`. -/
theorem C12_witness :
    gconf_cleaner_update 3 (gconf_cleaner_new store1) none = some (true, store1_scanned, none) ∧
    (gconf_cleaner_update 3 store1_scanned none = some (true, store1_scanned, none) ∧
     (∀ fuel2 ok2 gc3 error3,
       gconf_cleaner_update fuel2 store1_scanned none = some (ok2, gc3, error3) →
       ok2 = true ∧ gc3.dirs = store1_scanned.dirs ∧
         gconf_cleaner_n_dirs gc3 = gconf_cleaner_n_dirs store1_scanned ∧
         gconf_cleaner_n_pairs gc3 = gconf_cleaner_n_pairs store1_scanned ∧
         gconf_cleaner_n_unknown_pairs gc3 = gconf_cleaner_n_unknown_pairs store1_scanned ∧
         gc3.current_dir = store1_scanned.current_dir)) :=
  ⟨store1_update,
    C12_update_twice_same_result 3 (gconf_cleaner_new store1) none true store1_scanned none
      store1_update⟩

/-- C13 at `store1`, from a new cleaner and from a used one. -/
theorem C13_witness :
    (gconf_cleaner_new store1).gconf = store1_used.gconf ∧
    gconf_cleaner_update 3 (gconf_cleaner_new store1) none = some (true, store1_scanned, none) ∧
    (gconf_cleaner_update 3 store1_used (some "earlier error") =
        some (true, store1_scanned, none) ∧
     store1_scanned.current_dir = store1_scanned.dirs ∧
     gconf_cleaner_get_current_dir store1_scanned = store1_scanned.dirs.head? ∧
     gconf_cleaner_n_pairs store1_scanned = 0 ∧
     gconf_cleaner_n_unknown_pairs store1_scanned = 0) :=
  ⟨rfl, store1_update,
    C13_update_resets_cursor_and_counters 3 (gconf_cleaner_new store1) store1_used none
      (some "earlier error") store1_scanned none rfl store1_update⟩

/-- C14 at `entry_store`, with the cursor at `/apps`. -/
theorem C14_witness :
    entry_scanned.current_dir = "/apps" :: ["/desktop"] ∧
    (gconf_cleaner_get_current_dir entry_scanned = some "/apps" ∧
     gconf_cleaner_get_current_dir_step entry_scanned = (some "/apps", entry_scanned) ∧
     ∃ pairs gc2 error2,
       gconf_cleaner_get_unknown_pairs_at_current_dir
         (gconf_cleaner_get_current_dir_step entry_scanned).2 none =
           some (pairs, gc2, error2) ∧
       (∀ msg, entry_store.all_entries "/apps" = .error msg →
         pairs = [] ∧ error2 = some (entries_error_message "/apps" msg)) ∧
       (∀ es, entry_store.all_entries "/apps" = .ok es →
         pairs = unknown_pairs entry_store es ∧ error2 = none)) :=
  ⟨rfl, C14_get_current_dir_reads_cursor entry_scanned none "/apps" ["/desktop"] rfl⟩

/-- C11 fails at `/apps` of `entry_store`: the schema lookup of `/apps/broken`
fails with a store error, and the call returns the three unknown pairs with no
error set. -/
theorem C11_schema_error_not_reported :
    (⟨"/apps/broken", some ⟨"3"⟩, some "/schemas/apps/broken"⟩ : GConfEntry) ∈
      apps_entries ∧
    entry_store.get_schema "/schemas/apps/broken" none = (none, some "backend failure") ∧
    entry_store.all_entries "/apps" = .ok apps_entries ∧
    gconf_cleaner_get_unknown_pairs_at_current_dir entry_scanned none =
      some ([PairItem.key "/apps/plain", PairItem.value ⟨"1"⟩,
             PairItem.key "/apps/broken", PairItem.value ⟨"3"⟩,
             PairItem.key "/apps/gone", PairItem.value ⟨"4"⟩], entry_after_apps, none) :=
  ⟨by decide, rfl, rfl, entry_fetch_apps⟩

/-- C15: the scenario. The scan of `scenario_store` succeeds with the list
`/apps`, `/apps/foo` and `n_dirs = 2`; fetching `/apps` returns nothing,
fetching `/apps/foo` returns the pair `bar`, `baz`, and afterwards
`n_pairs = 1` and `n_unknown_pairs = 1`. -/
theorem C15_scenario :
    gconf_cleaner_update 3 (gconf_cleaner_new scenario_store) none =
      some (true, scenario_scanned, none) ∧
    scenario_scanned.dirs = ["/apps", "/apps/foo"] ∧
    gconf_cleaner_n_dirs scenario_scanned = 2 ∧
    gconf_cleaner_get_unknown_pairs_at_current_dir scenario_scanned none =
      some ([], scenario_after_apps, none) ∧
    gconf_cleaner_get_current_dir scenario_after_apps = some "/apps/foo" ∧
    gconf_cleaner_get_unknown_pairs_at_current_dir scenario_after_apps none =
      some ([PairItem.key "bar", PairItem.value ⟨"baz"⟩], scenario_after_foo, none) ∧
    gconf_cleaner_n_pairs scenario_after_foo = 1 ∧
    gconf_cleaner_n_unknown_pairs scenario_after_foo = 1 :=
  ⟨rfl, rfl, rfl, rfl, rfl, rfl, rfl, rfl⟩

/-- C17: the scan of `partial_store` (root children `/a`, a leaf, then `/b`,
whose child-directory query fails) returns failure with an empty directory
list while `gconf_cleaner_n_dirs` is `1`. -/
theorem C17_failed_scan_keeps_counter :
    gconf_cleaner_update 2 (gconf_cleaner_new partial_store) none =
      some (false, partial_scanned, some (dirs_error_message "/b" "no answer")) ∧
    partial_scanned.dirs = [] ∧ gconf_cleaner_n_dirs partial_scanned = 1 ∧
    partial_store.all_dirs "/" = .ok ["/a", "/b"] ∧ partial_store.all_dirs "/a" = .ok [] ∧
    partial_store.all_dirs "/b" = .error "no answer" :=
  ⟨rfl, rfl, rfl, rfl, rfl, rfl⟩

/-! ## Blacklisted directories are not queried -/

/-- The walk reads the child-directory answers of non-blacklisted paths only. -/
theorem scan_agree (g1 g2 : GConfEngine)
    (hagree : ∀ p, is_blacklisted p = false → g1.all_dirs p = g2.all_dirs p) :
    ∀ (fuel : Nat), _gconf_cleaner_all_dirs_recursively g1 fuel =
      _gconf_cleaner_all_dirs_recursively g2 fuel := by
  intro fuel
  induction fuel with
  | zero => funext st path; simp [_gconf_cleaner_all_dirs_recursively]
  | succ fuel ih =>
    funext st path
    rw [_gconf_cleaner_all_dirs_recursively, _gconf_cleaner_all_dirs_recursively]
    by_cases hb : is_blacklisted path = true
    · simp only [hb, if_true]
    · have hb2 : is_blacklisted path = false := by simpa using hb
      simp only [hb2, Bool.false_eq_true, if_false]
      rw [hagree path hb2, ih]

/-- C16: two stores whose child-directory answers agree on every path with a
non-blacklisted base name give the same outcome of `gconf_cleaner_update`:
both run out of fuel, or both return with the same return value, directory
list, `n_dirs` and error. -/
theorem C16_blacklisted_subtrees_not_queried (fuel : Nat) (gc1 gc2 : GConfCleaner)
    (error1 error2 : Option String)
    (hagree : ∀ p, is_blacklisted p = false → gc1.gconf.all_dirs p = gc2.gconf.all_dirs p) :
    (gconf_cleaner_update fuel gc1 error1).map
        (fun x => (x.1, x.2.1.dirs, gconf_cleaner_n_dirs x.2.1, x.2.2)) =
      (gconf_cleaner_update fuel gc2 error2).map
        (fun x => (x.1, x.2.1.dirs, gconf_cleaner_n_dirs x.2.1, x.2.2)) := by
  rw [update_eq, update_eq, scan_agree gc1.gconf gc2.gconf hagree fuel]
  cases _gconf_cleaner_all_dirs_recursively gc2.gconf fuel ⟨0, none⟩ "/" with
  | none => rfl
  | some r => rfl

theorem store1_agrees :
    ∀ p, is_blacklisted p = false → store1.all_dirs p = store1_answering.all_dirs p := by
  intro p hp
  by_cases h1 : p = "/"
  · subst h1; rfl
  · by_cases h2 : p = "/apps"
    · subst h2; rfl
    · by_cases h3 : p = "/schemas"
      · subst h3
        have hs : is_blacklisted "/schemas" = true := by decide
        rw [hs] at hp
        cases hp
      · simp [store1, store1_answering, h1, h2, h3]

/-- C16 at `store1`, whose query for `/schemas` fails, and `store1_answering`,
where it answers: both scans succeed with the same list. -/
theorem C16_witness :
    (∀ p, is_blacklisted p = false → store1.all_dirs p = store1_answering.all_dirs p) ∧
    store1.all_dirs "/schemas" = .error "boom" ∧
    store1_answering.all_dirs "/schemas" = .ok ["/schemas/apps"] ∧
    (gconf_cleaner_update 3 (gconf_cleaner_new store1) none).map
        (fun x => (x.1, x.2.1.dirs, gconf_cleaner_n_dirs x.2.1, x.2.2)) =
      (gconf_cleaner_update 3 (gconf_cleaner_new store1_answering) none).map
        (fun x => (x.1, x.2.1.dirs, gconf_cleaner_n_dirs x.2.1, x.2.2)) ∧
    (gconf_cleaner_update 3 (gconf_cleaner_new store1) none).map
        (fun x => (x.1, x.2.1.dirs, gconf_cleaner_n_dirs x.2.1, x.2.2)) =
      some (true, ["/apps", "/apps/foo", "/apps/myprefs"], 3, none) :=
  ⟨store1_agrees, rfl, rfl,
    C16_blacklisted_subtrees_not_queried 3 (gconf_cleaner_new store1)
      (gconf_cleaner_new store1_answering) none none store1_agrees,
    rfl⟩

/-! ## The pair counters along a sequence of calls -/

theorem guint_iterate (k n : Nat) (hn : n < GUINT_MOD) :
    guint_incr^[k] n = (n + k) % GUINT_MOD := by
  induction k with
  | zero => simp [Nat.mod_eq_of_lt hn]
  | succ k ih => rw [Function.iterate_succ_apply', ih, guint_incr_add]

theorem guint_mod_lt (n : Nat) : n % GUINT_MOD < GUINT_MOD :=
  Nat.mod_lt _ (by unfold GUINT_MOD; omega)

theorem flat_pairs_length (l : List GConfEntry) (hl : ∀ e ∈ l, ∃ v, e.value = some v) :
    (l.flatMap pair_of).length = 2 * l.length := by
  induction l with
  | nil => rfl
  | cons e rest ih =>
    obtain ⟨v, hv⟩ := hl e (List.mem_cons_self _ _)
    have ih2 := ih (fun x hx => hl x (List.mem_cons_of_mem _ hx))
    simp only [List.flatMap_cons, List.length_append, ih2, pair_of, hv, List.length_cons,
      List.length_nil]
    omega

theorem unknown_pairs_length (g : GConfEngine) (es : List GConfEntry) :
    (unknown_pairs g es).length = 2 * (unknown_entries g es).length := by
  unfold unknown_pairs
  apply flat_pairs_length
  exact unknown_from_value g es none

/-- Along any sequence of calls the two pair counters are, modulo `2 ^ 32`, the
number of pairs returned and the number of entries examined. -/
theorem fetch_trace_counters :
    ∀ (k : Nat) (gc : GConfCleaner) (error : Option String) (gck : GConfCleaner)
      (ek : Option String) (returned : List (List PairItem)),
      gc.n_pairs < GUINT_MOD → gc.n_unknown_pairs < GUINT_MOD →
      fetch_trace k gc error = some (gck, ek, returned) →
      gck.n_unknown_pairs = (gc.n_unknown_pairs + returned_pair_count returned) % GUINT_MOD ∧
      gck.n_pairs =
        (gc.n_pairs + examined_entry_count gc.gconf (gc.current_dir.take k)) % GUINT_MOD ∧
      returned_pair_count returned ≤ examined_entry_count gc.gconf (gc.current_dir.take k) ∧
      returned.length = k := by
  intro k
  induction k with
  | zero =>
    intro gc error gck ek returned hp hu h
    simp only [fetch_trace, Option.some.injEq, Prod.mk.injEq] at h
    obtain ⟨h1, _, h3⟩ := h
    subst h1
    subst h3
    simp [returned_pair_count, examined_entry_count, Nat.mod_eq_of_lt hp, Nat.mod_eq_of_lt hu]
  | succ k ih =>
    intro gc error gck ek returned hp hu h
    rw [fetch_trace] at h
    cases hcur : gc.current_dir with
    | nil =>
      simp [gconf_cleaner_get_unknown_pairs_at_current_dir, hcur] at h
    | cons path next =>
      rw [fetch_at_cursor gc error path next hcur] at h
      simp only at h
      cases hq : gc.gconf.all_entries path with
      | error msg =>
        rw [hq] at h
        simp only at h
        cases ht : fetch_trace k { gc with current_dir := next }
            (some (entries_error_message path msg)) with
        | none => simp [ht] at h
        | some t =>
          obtain ⟨gc3, error3, ret3⟩ := t
          simp only [ht, Option.some.injEq, Prod.mk.injEq] at h
          obtain ⟨h1, _, h3⟩ := h
          subst h1
          subst h3
          obtain ⟨i1, i2, i3, i4⟩ := ih { gc with current_dir := next } _ _ _ _ hp hu ht
          simp only at i1 i2 i3
          have hc : entries_count gc.gconf path = 0 := by simp [entries_count, hq]
          simp only [List.take_succ_cons, examined_entry_count, List.map_cons, List.sum_cons,
            hc, returned_pair_count, List.length_nil, Nat.zero_div, Nat.zero_add,
            List.length_cons, i4]
          exact ⟨i1, i2, i3, trivial⟩
      | ok es =>
        rw [hq] at h
        simp only at h
        cases ht : fetch_trace k
            { gc with current_dir := next,
                      n_pairs := guint_incr^[es.length] gc.n_pairs,
                      n_unknown_pairs :=
                        guint_incr^[(unknown_entries gc.gconf es).length]
                          gc.n_unknown_pairs } none with
        | none => simp [ht] at h
        | some t =>
          obtain ⟨gc3, error3, ret3⟩ := t
          simp only [ht, Option.some.injEq, Prod.mk.injEq] at h
          obtain ⟨h1, _, h3⟩ := h
          subst h1
          subst h3
          have hp2 := guint_iterate es.length gc.n_pairs hp
          have hu2 := guint_iterate (unknown_entries gc.gconf es).length
            gc.n_unknown_pairs hu
          rw [hp2, hu2] at ht
          obtain ⟨i1, i2, i3, i4⟩ := ih _ _ _ _ _ (guint_mod_lt _) (guint_mod_lt _) ht
          simp only at i1 i2 i3
          have hc : entries_count gc.gconf path = es.length := by simp [entries_count, hq]
          have hlen := unknown_pairs_length gc.gconf es
          have hle : (unknown_entries gc.gconf es).length ≤ es.length :=
            unknown_from_length_le gc.gconf es none
          simp only [List.take_succ_cons, examined_entry_count, List.map_cons, List.sum_cons,
            hc, returned_pair_count, hlen, List.length_cons, i4] at i1 i2 i3 ⊢
          have hhalf : 2 * (unknown_entries gc.gconf es).length / 2 =
              (unknown_entries gc.gconf es).length := by omega
          rw [hhalf]
          refine ⟨?_, ?_, ?_, trivial⟩
          · rw [i1]; unfold GUINT_MOD; omega
          · rw [i2]; unfold GUINT_MOD; omega
          · omega

/-- C18: after a `gconf_cleaner_update` and any `k` calls of
`gconf_cleaner_get_unknown_pairs_at_current_dir`, `n_unknown_pairs` is the
number of pairs those calls returned and `n_pairs` the number of entries of the
visited directories whose entry query succeeded, both modulo `2 ^ 32`; the
first number is at most the second, so without wrap-around the counters are
these numbers and `n_unknown_pairs ≤ n_pairs`. -/
theorem C18_pair_counters_invariant (fuel : Nat) (gc : GConfCleaner) (error : Option String)
    (ok : Bool) (gc1 : GConfCleaner) (error1 : Option String) (k : Nat) (gck : GConfCleaner)
    (ek : Option String) (returned : List (List PairItem))
    (h : gconf_cleaner_update fuel gc error = some (ok, gc1, error1))
    (ht : fetch_trace k gc1 error1 = some (gck, ek, returned)) :
    gconf_cleaner_n_unknown_pairs gck = returned_pair_count returned % GUINT_MOD ∧
    gconf_cleaner_n_pairs gck =
      examined_entry_count gc.gconf (gc1.dirs.take k) % GUINT_MOD ∧
    returned_pair_count returned ≤ examined_entry_count gc.gconf (gc1.dirs.take k) ∧
    (examined_entry_count gc.gconf (gc1.dirs.take k) < GUINT_MOD →
      gconf_cleaner_n_unknown_pairs gck = returned_pair_count returned ∧
      gconf_cleaner_n_pairs gck = examined_entry_count gc.gconf (gc1.dirs.take k) ∧
      gconf_cleaner_n_unknown_pairs gck ≤ gconf_cleaner_n_pairs gck) := by
  obtain ⟨r, _, _, _, hgc⟩ := update_inv fuel gc error ok gc1 error1 h
  have hzero : (0 : Nat) < GUINT_MOD := by unfold GUINT_MOD; omega
  have hp : gc1.n_pairs < GUINT_MOD := by rw [hgc]; exact hzero
  have hu : gc1.n_unknown_pairs < GUINT_MOD := by rw [hgc]; exact hzero
  obtain ⟨i1, i2, i3, _⟩ := fetch_trace_counters k gc1 error1 gck ek returned hp hu ht
  have hn1 : gc1.n_pairs = 0 := by rw [hgc]
  have hn2 : gc1.n_unknown_pairs = 0 := by rw [hgc]
  have hg : gc1.gconf = gc.gconf := by rw [hgc]
  have hc : gc1.current_dir = gc1.dirs := by rw [hgc]
  rw [hn1, hg, hc, Nat.zero_add] at i2
  rw [hn2, Nat.zero_add] at i1
  rw [hg, hc] at i3
  refine ⟨i1, i2, i3, ?_⟩
  intro hlt
  have e1 : gconf_cleaner_n_unknown_pairs gck = returned_pair_count returned := by
    show gck.n_unknown_pairs = _
    rw [i1]
    exact Nat.mod_eq_of_lt (Nat.lt_of_le_of_lt i3 hlt)
  have e2 : gconf_cleaner_n_pairs gck =
      examined_entry_count gc.gconf (gc1.dirs.take k) := by
    show gck.n_pairs = _
    rw [i2]
    exact Nat.mod_eq_of_lt hlt
  exact ⟨e1, e2, by rw [e1, e2]; exact i3⟩

/-- C18 at `entry_store`, after the scan and one call for each directory. -/
theorem C18_witness :
    gconf_cleaner_update 2 (gconf_cleaner_new entry_store) none =
      some (true, entry_scanned, none) ∧
    fetch_trace 2 entry_scanned none =
      some (entry_exhausted, some (entries_error_message "/desktop" "stale lock"),
        [[PairItem.key "/apps/plain", PairItem.value ⟨"1"⟩,
          PairItem.key "/apps/broken", PairItem.value ⟨"3"⟩,
          PairItem.key "/apps/gone", PairItem.value ⟨"4"⟩], []]) ∧
    (gconf_cleaner_n_unknown_pairs entry_exhausted =
        returned_pair_count
          [[PairItem.key "/apps/plain", PairItem.value ⟨"1"⟩,
            PairItem.key "/apps/broken", PairItem.value ⟨"3"⟩,
            PairItem.key "/apps/gone", PairItem.value ⟨"4"⟩], []] % GUINT_MOD ∧
     gconf_cleaner_n_pairs entry_exhausted =
       examined_entry_count entry_store (entry_scanned.dirs.take 2) % GUINT_MOD ∧
     returned_pair_count
          [[PairItem.key "/apps/plain", PairItem.value ⟨"1"⟩,
            PairItem.key "/apps/broken", PairItem.value ⟨"3"⟩,
            PairItem.key "/apps/gone", PairItem.value ⟨"4"⟩], []] ≤
       examined_entry_count entry_store (entry_scanned.dirs.take 2) ∧
     (examined_entry_count entry_store (entry_scanned.dirs.take 2) < GUINT_MOD →
       gconf_cleaner_n_unknown_pairs entry_exhausted =
         returned_pair_count
           [[PairItem.key "/apps/plain", PairItem.value ⟨"1"⟩,
             PairItem.key "/apps/broken", PairItem.value ⟨"3"⟩,
             PairItem.key "/apps/gone", PairItem.value ⟨"4"⟩], []] ∧
       gconf_cleaner_n_pairs entry_exhausted =
         examined_entry_count entry_store (entry_scanned.dirs.take 2) ∧
       gconf_cleaner_n_unknown_pairs entry_exhausted ≤
         gconf_cleaner_n_pairs entry_exhausted)) ∧
    gconf_cleaner_n_unknown_pairs entry_exhausted = 3 ∧
    gconf_cleaner_n_pairs entry_exhausted = 5 :=
  ⟨entry_update, rfl,
    C18_pair_counters_invariant 2 (gconf_cleaner_new entry_store) none true entry_scanned
      none 2 entry_exhausted (some (entries_error_message "/desktop" "stale lock")) _
      entry_update rfl,
    rfl, rfl⟩

/-! ## The shape of a returned list -/

theorem flat_pairs_get (l : List GConfEntry) (hl : ∀ e ∈ l, ∃ v, e.value = some v) :
    ∀ (i : Nat) (hi : i < l.length),
      (l.flatMap pair_of)[2 * i]? = some (PairItem.key l[i].key) ∧
      (l.flatMap pair_of)[2 * i + 1]? = l[i].value.map PairItem.value := by
  induction l with
  | nil => intro i hi; simp at hi
  | cons e rest ih =>
    intro i hi
    obtain ⟨v, hv⟩ := hl e (List.mem_cons_self _ _)
    have ih2 := ih (fun x hx => hl x (List.mem_cons_of_mem _ hx))
    have hflat : (e :: rest).flatMap pair_of =
        PairItem.key e.key :: PairItem.value v :: rest.flatMap pair_of := by
      simp [List.flatMap_cons, pair_of, hv]
    rw [hflat]
    cases i with
    | zero => simp [hv]
    | succ j =>
      have hj : j < rest.length := by simpa using hi
      obtain ⟨h1, h2⟩ := ih2 j hj
      have e1 : 2 * (j + 1) = (2 * j + 1) + 1 := by omega
      have e2 : 2 * (j + 1) + 1 = ((2 * j + 1) + 1) + 1 := by omega
      refine ⟨?_, ?_⟩
      · rw [e1, List.getElem?_cons_succ, List.getElem?_cons_succ, h1]
        simp
      · rw [e2, List.getElem?_cons_succ, List.getElem?_cons_succ, h2]
        simp

theorem release_length (l : List GConfEntry) (hl : ∀ e ∈ l, ∃ v, e.value = some v) :
    (l.flatMap release_of).length = 2 * l.length := by
  induction l with
  | nil => rfl
  | cons e rest ih =>
    obtain ⟨v, hv⟩ := hl e (List.mem_cons_self _ _)
    have ih2 := ih (fun x hx => hl x (List.mem_cons_of_mem _ hx))
    simp only [List.flatMap_cons, List.length_append, ih2, release_of, hv, List.length_cons,
      List.length_nil]
    omega

theorem pairs_free_loop_flat (l : List GConfEntry) (hl : ∀ e ∈ l, ∃ v, e.value = some v) :
    pairs_free_loop (l.flatMap pair_of) = some (l.flatMap release_of) := by
  induction l with
  | nil => rfl
  | cons e rest ih =>
    obtain ⟨v, hv⟩ := hl e (List.mem_cons_self _ _)
    have ih2 := ih (fun x hx => hl x (List.mem_cons_of_mem _ hx))
    have hflat : (e :: rest).flatMap pair_of =
        PairItem.key e.key :: PairItem.value v :: rest.flatMap pair_of := by
      simp [List.flatMap_cons, pair_of, hv]
    have hrel : (e :: rest).flatMap release_of =
        FreeOp.g_free (PairItem.key e.key) :: FreeOp.gconf_value_free (PairItem.value v) ::
          rest.flatMap release_of := by
      simp [List.flatMap_cons, release_of, hv]
    rw [hflat, hrel, pairs_free_loop, ih2]

theorem pairs_free_flat (l : List GConfEntry) (hl : ∀ e ∈ l, ∃ v, e.value = some v) :
    gconf_cleaner_pairs_free (l.flatMap pair_of) = some (l.flatMap release_of) := by
  have h := pairs_free_loop_flat l hl
  unfold gconf_cleaner_pairs_free
  split
  · rename_i heq
    rw [heq] at h
    simpa [pairs_free_loop] using h
  · exact h

/-- C19: the list returned at a valid cursor has even length and
`gconf_cleaner_pairs_free` walks it without reading past its end; when the
entry query succeeds its length is twice the number of unknown entries, the
key of the `i`-th unknown entry stands at position `2 i` and its value at
`2 i + 1`, and the walk releases each key with `g_free` and each value with
`gconf_value_free`. -/
theorem C19_returned_list_is_flat_pairs (gc : GConfCleaner) (error : Option String)
    (path : String) (next : List String) (hcur : gc.current_dir = path :: next) :
    ∃ pairs gc2 error2 ops,
      gconf_cleaner_get_unknown_pairs_at_current_dir gc error = some (pairs, gc2, error2) ∧
      pairs.length % 2 = 0 ∧
      gconf_cleaner_pairs_free pairs = some ops ∧ ops.length = pairs.length ∧
      (∀ es, gc.gconf.all_entries path = .ok es →
        pairs.length = 2 * (unknown_entries gc.gconf es).length ∧
        (∀ (i : Nat) (hi : i < (unknown_entries gc.gconf es).length),
          pairs[2 * i]? = some (PairItem.key (unknown_entries gc.gconf es)[i].key) ∧
          pairs[2 * i + 1]? =
            (unknown_entries gc.gconf es)[i].value.map PairItem.value ∧
          (unknown_entries gc.gconf es)[i].value.isSome = true) ∧
        ops = (unknown_entries gc.gconf es).flatMap release_of) := by
  rw [fetch_at_cursor gc error path next hcur]
  cases hq : gc.gconf.all_entries path with
  | error msg =>
    refine ⟨[], _, _, [], rfl, rfl, rfl, rfl, ?_⟩
    intro es hes
    cases hes
  | ok es =>
    have hall : ∀ e ∈ unknown_entries gc.gconf es, ∃ v, e.value = some v :=
      unknown_from_value gc.gconf es none
    have hlen := unknown_pairs_length gc.gconf es
    have hfree := pairs_free_flat (unknown_entries gc.gconf es) hall
    have hops : ((unknown_entries gc.gconf es).flatMap release_of).length =
        (unknown_pairs gc.gconf es).length := by
      rw [hlen, release_length _ hall]
    refine ⟨unknown_pairs gc.gconf es, _, none, _, rfl, ?_, hfree, hops, ?_⟩
    · rw [hlen]; omega
    · intro es2 hes
      cases hes
      refine ⟨hlen, ?_, rfl⟩
      intro i hi
      obtain ⟨h1, h2⟩ := flat_pairs_get (unknown_entries gc.gconf es) hall i hi
      obtain ⟨v, hv⟩ := hall _ (List.getElem_mem hi)
      exact ⟨h1, h2, by rw [hv]; rfl⟩

/-- C19 at `/apps` of `entry_store`: six list elements for three unknown
entries. -/
theorem C19_witness :
    entry_scanned.current_dir = "/apps" :: ["/desktop"] ∧
    (∃ pairs gc2 error2 ops,
      gconf_cleaner_get_unknown_pairs_at_current_dir entry_scanned none =
        some (pairs, gc2, error2) ∧
      pairs.length % 2 = 0 ∧
      gconf_cleaner_pairs_free pairs = some ops ∧ ops.length = pairs.length ∧
      (∀ es, entry_store.all_entries "/apps" = .ok es →
        pairs.length = 2 * (unknown_entries entry_store es).length ∧
        (∀ (i : Nat) (hi : i < (unknown_entries entry_store es).length),
          pairs[2 * i]? = some (PairItem.key (unknown_entries entry_store es)[i].key) ∧
          pairs[2 * i + 1]? =
            (unknown_entries entry_store es)[i].value.map PairItem.value ∧
          (unknown_entries entry_store es)[i].value.isSome = true) ∧
        ops = (unknown_entries entry_store es).flatMap release_of)) ∧
    gconf_cleaner_pairs_free
        [PairItem.key "/apps/plain", PairItem.value ⟨"1"⟩,
         PairItem.key "/apps/broken", PairItem.value ⟨"3"⟩,
         PairItem.key "/apps/gone", PairItem.value ⟨"4"⟩] =
      some [FreeOp.g_free (PairItem.key "/apps/plain"),
            FreeOp.gconf_value_free (PairItem.value ⟨"1"⟩),
            FreeOp.g_free (PairItem.key "/apps/broken"),
            FreeOp.gconf_value_free (PairItem.value ⟨"3"⟩),
            FreeOp.g_free (PairItem.key "/apps/gone"),
            FreeOp.gconf_value_free (PairItem.value ⟨"4"⟩)] ∧
    gconf_cleaner_pairs_free [PairItem.key "/apps/plain"] = none :=
  ⟨rfl, C19_returned_list_is_flat_pairs entry_scanned none "/apps" ["/desktop"] rfl,
    by decide, by decide⟩

/-! ## Termination on finite trees -/

theorem reach_step (g : GConfEngine) (root p c : String) (cs : List String)
    (hp : p = root ∨ Discovered g root p) (hpb : is_blacklisted p = false)
    (hq : g.all_dirs p = .ok cs) (hc : c ∈ cs) (hcb : is_blacklisted c = false) :
    Discovered g root c := by
  rcases hp with hp | hp
  · subst hp
    exact Discovered.child hpb hq hc hcb
  · induction hp with
    | child h1 h2 h3 h4 => exact Discovered.deeper h1 h2 h3 h4 (Discovered.child hpb hq hc hcb)
    | deeper h1 h2 h3 h4 _ ih => exact Discovered.deeper h1 h2 h3 h4 (ih hpb hq)

theorem uniform_bound (P : String → Nat → Prop) :
    ∀ (cs : List String), (∀ c ∈ cs, ∃ n, ∀ m, n ≤ m → P c m) →
      ∃ N, ∀ c ∈ cs, ∀ m, N ≤ m → P c m := by
  intro cs
  induction cs with
  | nil => intro _; exact ⟨0, fun c hc => by simp at hc⟩
  | cons a rest ih =>
    intro h
    obtain ⟨n, hn⟩ := h a (List.mem_cons_self _ _)
    obtain ⟨N, hN⟩ := ih (fun c hc => h c (List.mem_cons_of_mem _ hc))
    refine ⟨max n N, ?_⟩
    intro c hc m hm
    rcases List.mem_cons.1 hc with hca | hcr
    · subst hca
      exact hn m (le_trans (le_max_left _ _) hm)
    · exact hN c hcr m (le_trans (le_max_right _ _) hm)

/-- Below a root whose child relation is well-founded the walk returns from
every directory, for all large enough fuel. -/
theorem scan_returns_of_wf (g : GConfEngine) (root : String)
    (hwf : WellFounded (ChildBelow g root)) :
    ∀ p, (p = root ∨ Discovered g root p) →
      ∃ n, ∀ fuel, n ≤ fuel → ∀ st, ∃ r,
        _gconf_cleaner_all_dirs_recursively g fuel st p = some r := by
  intro p
  induction p using hwf.induction with
  | _ p ih =>
    intro hp
    by_cases hb : is_blacklisted p = true
    · refine ⟨1, ?_⟩
      intro fuel hfuel st
      obtain ⟨f, rfl⟩ : ∃ f, fuel = f + 1 := ⟨fuel - 1, by omega⟩
      rw [_gconf_cleaner_all_dirs_recursively]
      simp only [hb, if_true]
      exact ⟨_, rfl⟩
    · have hb2 : is_blacklisted p = false := by simpa using hb
      cases hq : g.all_dirs p with
      | error e =>
        refine ⟨1, ?_⟩
        intro fuel hfuel st
        obtain ⟨f, rfl⟩ : ∃ f, fuel = f + 1 := ⟨fuel - 1, by omega⟩
        rw [_gconf_cleaner_all_dirs_recursively]
        simp only [hb2, Bool.false_eq_true, if_false, hq]
        exact ⟨_, rfl⟩
      | ok cs =>
        have hchildren : ∀ c ∈ cs, ∃ n, ∀ m, n ≤ m →
            ∀ st, ∃ r, _gconf_cleaner_all_dirs_recursively g m st c = some r := by
          intro c hc
          by_cases hcb : is_blacklisted c = true
          · refine ⟨1, ?_⟩
            intro m hm st
            obtain ⟨f, rfl⟩ : ∃ f, m = f + 1 := ⟨m - 1, by omega⟩
            rw [_gconf_cleaner_all_dirs_recursively]
            simp only [hcb, if_true]
            exact ⟨_, rfl⟩
          · have hcb2 : is_blacklisted c = false := by simpa using hcb
            exact ih c ⟨hp, hb2, cs, hq, hc, hcb2⟩
              (Or.inr (reach_step g root p c cs hp hb2 hq hc hcb2))
        obtain ⟨N, hN⟩ := uniform_bound
          (fun c m => ∀ st, ∃ r, _gconf_cleaner_all_dirs_recursively g m st c = some r)
          cs hchildren
        refine ⟨N + 1, ?_⟩
        intro fuel hfuel st
        obtain ⟨f, rfl⟩ : ∃ f, fuel = f + 1 := ⟨fuel - 1, by omega⟩
        rw [_gconf_cleaner_all_dirs_recursively]
        simp only [hb2, Bool.false_eq_true, if_false, hq]
        exact dirs_loop_total _ cs (fun c hc st2 => hN c hc f (by omega) st2) [] st

theorem wf_of_rank (g : GConfEngine) (root : String) (rank : String → Nat)
    (hrank : RankDecreasing g rank) : WellFounded (ChildBelow g root) := by
  apply Subrelation.wf _ (InvImage.wf rank Nat.lt_wfRel.wf)
  intro c p h
  obtain ⟨_, hpb, cs, hq, hc, hcb⟩ := h
  exact hrank p cs c hpb hq hc hcb

/-- The message of a failure found by `first_failure`. -/
theorem dirs_loop_error (recurse : ScanState → String → Option ScanResult)
    (ff : String → Option (String × String))
    (IH : ∀ st c r, st.error = none → recurse st c = some r →
      r.st.error = (ff c).map (fun x => dirs_error_message x.1 x.2)) :
    ∀ (cs acc : List String) (st : ScanState) (r : ScanResult), st.error = none →
      dirs_loop recurse cs acc st = some r →
      r.st.error = (cs.findSome? ff).map (fun x => dirs_error_message x.1 x.2) := by
  intro cs
  induction cs with
  | nil =>
    intro acc st r he h
    simp only [dirs_loop, Option.some.injEq] at h
    subst h
    simpa using he
  | cons l rest ih =>
    intro acc st r he h
    simp only [dirs_loop] at h
    cases hrec : recurse st l with
    | none => simp [hrec] at h
    | some r1 =>
      simp only [hrec] at h
      have h1 := IH st l r1 he hrec
      by_cases herr : r1.st.error.isSome = true
      · simp only [herr, if_true, Option.some.injEq] at h
        subst h
        have hsome : (ff l).isSome = true := by
          rw [h1] at herr
          simpa using herr
        rw [List.findSome?_cons_of_isSome rest hsome]
        exact h1
      · simp only [herr, Bool.false_eq_true, if_false] at h
        have he1 : r1.st.error = none := by
          cases hx : r1.st.error with
          | none => rfl
          | some x => simp [hx] at herr
        have hnone : (ff l).isNone = true := by
          rw [h1] at he1
          cases hf : ff l with
          | none => rfl
          | some x => simp [hf] at he1
        rw [List.findSome?_cons_of_isNone rest hnone]
        by_cases hbl : (!r1.is_blocked) = true
        · simp only [hbl, if_true] at h
          exact ih _ { r1.st with n_dirs := guint_incr r1.st.n_dirs } r he1 h
        · simp only [hbl, Bool.false_eq_true, if_false] at h
          exact ih _ r1.st r he1 h

/-- The error a returning walk leaves is that of the first failing query in
walk order. -/
theorem scan_error (g : GConfEngine) :
    ∀ (fuel : Nat) (st : ScanState) (path : String) (r : ScanResult), st.error = none →
      _gconf_cleaner_all_dirs_recursively g fuel st path = some r →
      r.st.error = (first_failure g fuel path).map (fun x => dirs_error_message x.1 x.2) := by
  intro fuel
  induction fuel with
  | zero => intro st path r _ h; simp [_gconf_cleaner_all_dirs_recursively] at h
  | succ fuel ih =>
    intro st path r he h
    rw [_gconf_cleaner_all_dirs_recursively] at h
    rw [first_failure]
    by_cases hb : is_blacklisted path = true
    · simp only [hb, if_true, Option.some.injEq] at h
      subst h
      simpa [hb] using he
    · have hb2 : is_blacklisted path = false := by simpa using hb
      simp only [hb2, Bool.false_eq_true, if_false] at h ⊢
      cases hq : g.all_dirs path with
      | error e =>
        simp only [hq, Option.some.injEq] at h
        subst h
        simp [g_set_error, he]
      | ok cs =>
        simp only [hq] at h ⊢
        exact dirs_loop_error _ (first_failure g fuel) ih cs [] st r he h

theorem first_failure_sound (g : GConfEngine) :
    ∀ (depth : Nat) (p d e : String), is_blacklisted p = false →
      first_failure g depth p = some (d, e) →
      g.all_dirs d = .error e ∧ (d = p ∨ Discovered g p d) := by
  intro depth
  induction depth with
  | zero => intro p d e _ h; simp [first_failure] at h
  | succ depth ih =>
    intro p d e hp h
    rw [first_failure] at h
    simp only [hp, Bool.false_eq_true, if_false] at h
    cases hq : g.all_dirs p with
    | error m =>
      simp only [hq, Option.some.injEq, Prod.mk.injEq] at h
      obtain ⟨h1, h2⟩ := h
      subst h1
      subst h2
      exact ⟨hq, Or.inl rfl⟩
    | ok cs =>
      simp only [hq] at h
      obtain ⟨c, hc, hfc⟩ := List.exists_of_findSome?_eq_some h
      have hcb : is_blacklisted c = false := by
        cases depth with
        | zero => simp [first_failure] at hfc
        | succ k =>
          rw [first_failure] at hfc
          by_cases hx : is_blacklisted c = true
          · simp [hx] at hfc
          · simpa using hx
      obtain ⟨h1, h2⟩ := ih c d e hcb hfc
      refine ⟨h1, Or.inr ?_⟩
      rcases h2 with h2 | h2
      · subst h2
        exact Discovered.child hp hq hc hcb
      · exact Discovered.deeper hp hq hc hcb h2

/-- C20: when the child relation on the non-blocked directories at or below
`/` is well-founded (a finite tree, the listings being finite lists),
`gconf_cleaner_update` returns for every large enough fuel, always with the
same result, and every returning run has that result. The result is either
success with the complete pre-order list, or failure with an empty list and
the error of the first failing child-directory query in walk order. -/
theorem C20_scan_terminates_on_finite_tree (gc : GConfCleaner) (error : Option String)
    (hwf : WellFounded (ChildBelow gc.gconf "/")) :
    ∃ fuel0 ok gc2 error2,
      (∀ fuel, fuel0 ≤ fuel → gconf_cleaner_update fuel gc error = some (ok, gc2, error2)) ∧
      (∀ fuel x, gconf_cleaner_update fuel gc error = some x → x = (ok, gc2, error2)) ∧
      ((ok = true ∧ error2 = none ∧ gc2.dirs = preorder gc.gconf fuel0 "/" ∧
          ∀ d, Discovered gc.gconf "/" d → d ∈ gc2.dirs) ∨
       (ok = false ∧ gc2.dirs = [] ∧
          ∃ d e, first_failure gc.gconf fuel0 "/" = some (d, e) ∧
            gc.gconf.all_dirs d = .error e ∧ (d = "/" ∨ Discovered gc.gconf "/" d) ∧
            error2 = some (dirs_error_message d e))) := by
  obtain ⟨n, hn⟩ := scan_returns_of_wf gc.gconf "/" hwf "/" (Or.inl rfl)
  obtain ⟨r, hr⟩ := hn n (Nat.le_refl n) ⟨0, none⟩
  have hupd : ∀ fuel, n ≤ fuel → gconf_cleaner_update fuel gc error =
      some (r.st.error.isNone,
        { gconf := gc.gconf, dirs := r.retval, current_dir := r.retval,
          n_dirs := r.st.n_dirs, n_pairs := 0, n_unknown_pairs := 0, initialized := true },
        r.st.error) :=
    fun fuel hle =>
      update_of_scan fuel gc error r (scan_fuel_le gc.gconf n fuel hle ⟨0, none⟩ "/" r hr)
  refine ⟨n, _, _, _, hupd, ?_, ?_⟩
  · intro fuel x hx
    exact update_deterministic fuel n gc error error _ _ hx (hupd n (Nat.le_refl n))
  · have herr := scan_error gc.gconf n ⟨0, none⟩ "/" r rfl hr
    cases he : r.st.error with
    | none =>
      left
      have hs := update_success n gc error _ _ (by rw [hupd n (Nat.le_refl n), he]; rfl)
      obtain ⟨h1, h2, _⟩ := hs
      refine ⟨rfl, rfl, h2, ?_⟩
      intro d hd
      rw [h2]
      exact discovered_mem_preorder gc.gconf n "/" d h1 root_not_blacklisted hd
    | some msg =>
      right
      have hnil := (scan_failure gc.gconf n ⟨0, none⟩ "/" r rfl hr (by simp [he])).1
      rw [he] at herr
      cases hf : first_failure gc.gconf n "/" with
      | none => simp [hf] at herr
      | some x =>
        obtain ⟨d, e⟩ := x
        rw [hf] at herr
        obtain ⟨h1, h2⟩ := first_failure_sound gc.gconf n "/" d e root_not_blacklisted hf
        exact ⟨rfl, hnil, d, e, rfl, h1, h2, herr⟩

/-- C20 at `failing_store`, a finite tree in which the query for `/apps` fails. -/
theorem C20_witness :
    WellFounded (ChildBelow failing_store "/") ∧
    (∃ fuel0 ok gc2 error2,
      (∀ fuel, fuel0 ≤ fuel →
        gconf_cleaner_update fuel (gconf_cleaner_new failing_store) none =
          some (ok, gc2, error2)) ∧
      (∀ fuel x, gconf_cleaner_update fuel (gconf_cleaner_new failing_store) none = some x →
        x = (ok, gc2, error2)) ∧
      ((ok = true ∧ error2 = none ∧ gc2.dirs = preorder failing_store fuel0 "/" ∧
          ∀ d, Discovered failing_store "/" d → d ∈ gc2.dirs) ∨
       (ok = false ∧ gc2.dirs = [] ∧
          ∃ d e, first_failure failing_store fuel0 "/" = some (d, e) ∧
            failing_store.all_dirs d = .error e ∧
            (d = "/" ∨ Discovered failing_store "/" d) ∧
            error2 = some (dirs_error_message d e)))) ∧
    first_failure failing_store 2 "/" = some ("/apps", "unreachable") :=
  ⟨wf_of_rank failing_store "/" failing_rank failing_rank_decreasing,
    C20_scan_terminates_on_finite_tree (gconf_cleaner_new failing_store) none
      (wf_of_rank failing_store "/" failing_rank failing_rank_decreasing),
    by decide⟩

end Cleaner
